import Mathlib

/-!
# Verification of the custom_pic_plugin image-generation core

This file gives a shallow embedding, in Lean 4, of the size parsing /
validation utilities (`src/core/size_utils.py`,
`src/core/pic_action.py`), the provider payload builders
(`src/core/api_clients.py`, `src/core/api_clients/openai_client.py`),
the retry dispatcher (`ApiClient.generate_image`), the ModelScope
polling loop, the Gemini image-config builder and the response
normalizer (`src/core/image_utils.py`), together with theorems checking
the natural-language specification against this embedding.

Python strings are modelled as `List Char`; Python `int(...)` is
modelled by `pyInt` (surrounding whitespace, an optional sign, decimal
digits optionally grouped by single underscores); Python dicts used as
JSON payloads are modelled as insertion-ordered association lists.
-/

namespace PicPlugin

/-- Python strings are modelled as lists of characters. -/
abbrev Str := List Char

/-- ASCII lower-casing of one character, as used by `str.lower()` on the
ASCII inputs handled here. -/
def pyLowerChar (c : Char) : Char :=
  if 'A' ≤ c ∧ c ≤ 'Z' then Char.ofNat (c.toNat + 32) else c

/-- ASCII upper-casing of one character, as used by `str.upper()`. -/
def pyUpperChar (c : Char) : Char :=
  if 'a' ≤ c ∧ c ≤ 'z' then Char.ofNat (c.toNat - 32) else c

/-- `str.lower()`. -/
def pyLower (s : Str) : Str := s.map pyLowerChar

/-- `str.upper()`. -/
def pyUpper (s : Str) : Str := s.map pyUpperChar

/-- Python whitespace characters recognised by `str.strip()`. -/
def isPySpace (c : Char) : Bool :=
  c = ' ' ∨ c = '\t' ∨ c = '\n' ∨ c = '\r' ∨ c = '\x0b' ∨ c = '\x0c'

/-- `str.strip()`: drop whitespace from both ends. -/
def pyStrip (s : Str) : Str :=
  ((s.dropWhile isPySpace).reverse.dropWhile isPySpace).reverse

/-- The ten ASCII decimal digit characters. -/
def digitList : List Char := ['0', '1', '2', '3', '4', '5', '6', '7', '8', '9']

/-- ASCII decimal digit test (code points 48–57). -/
def isDigitChar (c : Char) : Bool := 48 ≤ c.toNat && c.toNat ≤ 57

/-- Tail of a Python integer-literal digit chunk: digits optionally
separated by single underscores, never trailing. -/
def intChunkTail : Str → Bool
  | [] => true
  | c :: rest =>
    if c = '_' then
      match rest with
      | [] => false
      | e :: rest2 => isDigitChar e && intChunkTail rest2
    else isDigitChar c && intChunkTail rest

/-- One chunk of a Python integer literal after the optional sign:
nonempty decimal digits, optionally separated by single underscores
(as accepted by `int()` since Python 3.6). -/
def intChunkOk : Str → Bool
  | [] => false
  | c :: rest => isDigitChar c && intChunkTail rest

/-- Numeric value of a digit/underscore chunk (underscores ignored). -/
def chunkVal (s : Str) : Nat :=
  (s.filter (fun c => c ≠ '_')).foldl (fun a c => 10 * a + (c.toNat - 48)) 0

/-- Model of Python `int(s)` on ASCII input: strip whitespace, optional
single `+`/`-` sign, then a digit chunk; `none` models `ValueError`. -/
def pyInt (s : Str) : Option Int :=
  match pyStrip s with
  | '+' :: rest => if intChunkOk rest then some (chunkVal rest) else none
  | '-' :: rest => if intChunkOk rest then some (-(chunkVal rest : Int)) else none
  | t => if intChunkOk t then some (chunkVal t) else none

/-- Little-endian base-10 digits of `n` (structurally recursive so that
the kernel can evaluate it; agrees with `Nat.digits 10`). -/
def natDigitsAux : Nat → Nat → List Nat
  | 0, _ => []
  | _ + 1, 0 => []
  | fuel + 1, n + 1 => (n + 1) % 10 :: natDigitsAux fuel ((n + 1) / 10)

/-- Little-endian base-10 digits of `n`. -/
def natDigits (n : Nat) : List Nat := natDigitsAux n n

/-- The character for a decimal digit value. -/
def digitChr : Nat → Char
  | 0 => '0' | 1 => '1' | 2 => '2' | 3 => '3' | 4 => '4'
  | 5 => '5' | 6 => '6' | 7 => '7' | 8 => '8' | _ => '9'

/-- Canonical decimal string of a natural number (empty for `0`;
all uses below have positive arguments). -/
def numStr (n : Nat) : Str := (natDigits n).reverse.map digitChr

end PicPlugin

namespace PicPlugin

theorem natDigitsAux_eq_digits (fuel n : Nat) (h : n ≤ fuel) :
    natDigitsAux fuel n = Nat.digits 10 n := by
  induction fuel generalizing n with
  | zero =>
    interval_cases n
    simp [natDigitsAux]
  | succ f ih =>
    match n with
    | 0 => simp [natDigitsAux]
    | m + 1 =>
      rw [natDigitsAux, Nat.digits_def' (by norm_num : 1 < 10) (Nat.succ_pos m)]
      have hdiv : (m + 1) / 10 ≤ f := by
        have h1 : (m + 1) / 10 < m + 1 := Nat.div_lt_self (Nat.succ_pos m) (by norm_num)
        omega
      rw [ih _ hdiv]

theorem natDigits_eq_digits (n : Nat) : natDigits n = Nat.digits 10 n :=
  natDigitsAux_eq_digits n n le_rfl

theorem natDigits_lt_ten {n d : Nat} (hd : d ∈ natDigits n) : d < 10 := by
  rw [natDigits_eq_digits] at hd
  exact Nat.digits_lt_base (by norm_num) hd

theorem natDigits_ne_nil {n : Nat} (h : 0 < n) : natDigits n ≠ [] := by
  rw [natDigits_eq_digits]
  exact Nat.digits_ne_nil_iff_ne_zero.mpr (Nat.pos_iff_ne_zero.mp h)

theorem digitChr_mem_digitList {d : Nat} (h : d < 10) : digitChr d ∈ digitList := by
  interval_cases d <;> decide

theorem digitChr_toNat {d : Nat} (h : d < 10) : (digitChr d).toNat = 48 + d := by
  interval_cases d <;> decide

/-- Every character of a canonical numeral is a decimal digit. -/
theorem numStr_mem_digitList {n : Nat} {c : Char} (hc : c ∈ numStr n) :
    c ∈ digitList := by
  simp only [numStr, List.mem_map, List.mem_reverse] at hc
  obtain ⟨d, hd, rfl⟩ := hc
  exact digitChr_mem_digitList (natDigits_lt_ten hd)

theorem numStr_ne_nil {n : Nat} (h : 0 < n) : numStr n ≠ [] := by
  simp only [numStr, ne_eq, List.map_eq_nil_iff, List.reverse_eq_nil_iff]
  exact natDigits_ne_nil h

/-- Facts about a decimal digit character used throughout: it is a digit
for the parser, not whitespace, not a separator, not a sign and stable
under the case maps. -/
theorem digit_char_facts {c : Char} (h : c ∈ digitList) :
    isDigitChar c = true ∧ isPySpace c = false ∧ c ≠ ':' ∧ c ≠ '-' ∧ c ≠ '+' ∧
      c ≠ 'x' ∧ c ≠ 'X' ∧ c ≠ '*' ∧ c ≠ '_' ∧ pyLowerChar c = c ∧
      pyUpperChar c = c := by
  fin_cases h <;> refine ⟨by decide, by decide, by decide, by decide, by decide,
    by decide, by decide, by decide, by decide, by decide, by decide⟩

theorem pyLower_eq_self {l : List Char} (h : ∀ c ∈ l, pyLowerChar c = c) :
    pyLower l = l := by
  simpa [pyLower] using List.map_congr_left (by simpa using h) |>.trans (List.map_id l)

theorem pyUpper_eq_self {l : List Char} (h : ∀ c ∈ l, pyUpperChar c = c) :
    pyUpper l = l := by
  simpa [pyUpper] using List.map_congr_left (by simpa using h) |>.trans (List.map_id l)

theorem dropWhile_eq_self_of_not {p : Char → Bool} {l : List Char}
    (h : ∀ c ∈ l, p c = false) : l.dropWhile p = l := by
  cases l with
  | nil => rfl
  | cons c t => simp [List.dropWhile, h c (List.mem_cons_self c t)]

/-- Stripping is the identity on strings without surrounding whitespace
(in particular on strings with no whitespace at all). -/
theorem pyStrip_eq_self {l : Str} (h : ∀ c ∈ l, isPySpace c = false) :
    pyStrip l = l := by
  unfold pyStrip
  rw [dropWhile_eq_self_of_not h, dropWhile_eq_self_of_not (by simpa using h),
    List.reverse_reverse]

theorem pyLower_numStr (n : Nat) : pyLower (numStr n) = numStr n :=
  pyLower_eq_self fun c hc => (digit_char_facts (numStr_mem_digitList hc)).2.2.2.2.2.2.2.2.2.1

theorem pyStrip_numStr (n : Nat) : pyStrip (numStr n) = numStr n :=
  pyStrip_eq_self fun c hc => (digit_char_facts (numStr_mem_digitList hc)).2.1

theorem intChunkTail_cons (d : Char) (t : Str) :
    intChunkTail (d :: t) =
      if d = '_' then
        (match t with
         | [] => false
         | e :: rest2 => isDigitChar e && intChunkTail rest2)
      else isDigitChar d && intChunkTail t := by
  rw [intChunkTail.eq_def]
  rfl

theorem intChunkTail_of_digits {t : Str} (h : ∀ c ∈ t, c ∈ digitList) :
    intChunkTail t = true := by
  induction t with
  | nil => rfl
  | cons d t ih =>
    have hd := digit_char_facts (h d (List.mem_cons_self d t))
    have ht := ih fun c hc => h c (List.mem_cons_of_mem d hc)
    rw [intChunkTail_cons, if_neg hd.2.2.2.2.2.2.2.2.1]
    simp [hd.1, ht]

/-- A nonempty all-digit string passes the integer-chunk test. -/
theorem intChunkOk_of_digits {l : Str} (hne : l ≠ [])
    (h : ∀ c ∈ l, c ∈ digitList) : intChunkOk l = true := by
  match l with
  | [] => exact absurd rfl hne
  | c :: rest =>
    have hc := (digit_char_facts (h c (List.mem_cons_self c rest))).1
    simp [intChunkOk, hc,
      intChunkTail_of_digits fun c hc => h c (List.mem_cons_of_mem _ hc)]

theorem foldl_digits_horner (ds : List Nat) (acc : Nat) :
    ds.reverse.foldl (fun a d => 10 * a + d) acc =
      acc * 10 ^ ds.length + Nat.ofDigits 10 ds := by
  induction ds generalizing acc with
  | nil => simp
  | cons d t ih =>
    simp only [List.reverse_cons, List.foldl_append, List.foldl_cons, List.foldl_nil,
      ih acc, Nat.ofDigits_cons, List.length_cons]
    ring

/-- Value of the digit chunk of a canonical numeral. -/
theorem chunkVal_numStr (n : Nat) : chunkVal (numStr n) = n := by
  unfold chunkVal numStr
  have hfil : ((natDigits n).reverse.map digitChr).filter (fun c => c ≠ '_') =
      (natDigits n).reverse.map digitChr := by
    apply List.filter_eq_self.mpr
    intro c hc
    simp only [List.mem_map, List.mem_reverse] at hc
    obtain ⟨d, hd, rfl⟩ := hc
    have := (digit_char_facts (digitChr_mem_digitList (natDigits_lt_ten hd))).2.2.2.2.2.2.2.2.1
    simpa using this
  rw [hfil, List.foldl_map]
  have hcong : (natDigits n).reverse.foldl (fun a c => 10 * a + ((digitChr c).toNat - 48)) 0 =
      (natDigits n).reverse.foldl (fun a d => 10 * a + d) 0 := by
    apply List.foldl_ext
    intro a d hd
    rw [digitChr_toNat (natDigits_lt_ten (List.mem_reverse.mp hd))]
    omega
  rw [hcong, foldl_digits_horner, natDigits_eq_digits, Nat.ofDigits_digits]
  simp

/-- Round trip: Python `int()` recovers `n` from its canonical numeral. -/
theorem pyInt_numStr {n : Nat} (h : 0 < n) : pyInt (numStr n) = some (n : Int) := by
  have hdig : ∀ c ∈ numStr n, c ∈ digitList := fun c hc => numStr_mem_digitList hc
  have hok := intChunkOk_of_digits (numStr_ne_nil h) hdig
  unfold pyInt
  rw [pyStrip_numStr]
  match hm : numStr n with
  | [] => exact absurd hm (numStr_ne_nil h)
  | c :: rest =>
    have hc := digit_char_facts (hdig c (hm ▸ List.mem_cons_self c rest))
    rw [hm] at hok
    have hval : chunkVal (c :: rest) = n := hm ▸ chunkVal_numStr n
    split
    · rename_i rest1 heq
      have hcp : c = '+' := by injection heq
      exact absurd hcp hc.2.2.2.2.1
    · rename_i rest1 heq
      have hcm : c = '-' := by injection heq
      exact absurd hcm hc.2.2.2.1
    · simp [hok, hval]

/-- Auxiliary for `splitChar` (Python `str.split(sep)`), carrying the
reversed current field. -/
def splitCharAux (sep : Char) : Str → Str → List Str
  | [], acc => [acc.reverse]
  | c :: rest, acc =>
    if c = sep then acc.reverse :: splitCharAux sep rest []
    else splitCharAux sep rest (c :: acc)

/-- Python `s.split(sep)` for a one-character separator. -/
def splitChar (sep : Char) (s : Str) : List Str := splitCharAux sep s []

/-- Python `s.split(sep, 1)`: the part before the first separator, and
the remainder after it if the separator occurs. -/
def splitFirst (sep : Char) : Str → Str × Option Str
  | [] => ([], none)
  | c :: rest =>
    if c = sep then ([], some rest)
    else
      let r := splitFirst sep rest
      (c :: r.1, r.2)

theorem splitCharAux_no_sep {sep : Char} {l : Str} (h : sep ∉ l) (acc : Str) :
    splitCharAux sep l acc = [acc.reverse ++ l] := by
  induction l generalizing acc with
  | nil => simp [splitCharAux]
  | cons c rest ih =>
    have hcs : c ≠ sep := fun hc => h (hc ▸ List.mem_cons_self c rest)
    rw [splitCharAux, if_neg hcs, ih (fun hm => h (List.mem_cons_of_mem c hm))]
    simp

theorem splitCharAux_sep {sep : Char} {a b : Str} (ha : sep ∉ a) (acc : Str) :
    splitCharAux sep (a ++ sep :: b) acc = (acc.reverse ++ a) :: splitChar sep b := by
  induction a generalizing acc with
  | nil => simp [splitCharAux, splitChar]
  | cons c rest ih =>
    have hcs : c ≠ sep := fun hc => ha (hc ▸ List.mem_cons_self c rest)
    rw [List.cons_append, splitCharAux, if_neg hcs,
      ih (fun hm => ha (List.mem_cons_of_mem c hm))]
    simp

/-- Splitting a string with exactly one separator occurrence gives the
two surrounding fields. -/
theorem splitChar_single {sep : Char} {a b : Str} (ha : sep ∉ a) (hb : sep ∉ b) :
    splitChar sep (a ++ sep :: b) = [a, b] := by
  rw [splitChar, splitCharAux_sep ha, splitChar, splitCharAux_no_sep hb]
  simp

theorem splitFirst_no_sep {sep : Char} {l : Str} (h : sep ∉ l) :
    splitFirst sep l = (l, none) := by
  induction l with
  | nil => rfl
  | cons c rest ih =>
    have hcs : c ≠ sep := fun hc => h (hc ▸ List.mem_cons_self c rest)
    rw [splitFirst, if_neg hcs, ih (fun hm => h (List.mem_cons_of_mem c hm))]

theorem splitFirst_sep {sep : Char} {a b : Str} (ha : sep ∉ a) :
    splitFirst sep (a ++ sep :: b) = (a, some b) := by
  induction a with
  | nil => simp [splitFirst]
  | cons c rest ih =>
    have hcs : c ≠ sep := fun hc => ha (hc ▸ List.mem_cons_self c rest)
    rw [List.cons_append, splitFirst, if_neg hcs,
      ih (fun hm => ha (List.mem_cons_of_mem c hm))]

/-- A canonical numeral contains no separator-like characters. -/
theorem numStr_not_mem {n : Nat} {c : Char}
    (hc : c = ':' ∨ c = '-' ∨ c = '+' ∨ c = 'x' ∨ c = 'X' ∨ c = '*' ∨ c = '_') :
    c ∉ numStr n := by
  intro hm
  have hf := digit_char_facts (numStr_mem_digitList hm)
  rcases hc with h | h | h | h | h | h | h <;> subst h
  · exact hf.2.2.1 rfl
  · exact hf.2.2.2.1 rfl
  · exact hf.2.2.2.2.1 rfl
  · exact hf.2.2.2.2.2.1 rfl
  · exact hf.2.2.2.2.2.2.1 rfl
  · exact hf.2.2.2.2.2.2.2.1 rfl
  · exact hf.2.2.2.2.2.2.2.2.1 rfl

/-!
## Embedding of `src/core/size_utils.py`
-/

/-- One iteration of the separator loop in `parse_pixel_size`: if `sep`
occurs in the lowered/stripped string, split on every occurrence,
require exactly two fields, parse both as integers and require them
positive; any failure falls through (`None`). -/
def trySep (sep : Char) (sl : Str) : Option (Int × Int) :=
  if sep ∈ sl then
    match splitChar sep sl with
    | [p0, p1] =>
      match pyInt (pyStrip p0), pyInt (pyStrip p1) with
      | some w, some h => if w > 0 ∧ h > 0 then some (w, h) else none
      | _, _ => none
    | _ => none
  else none

/-- `size_utils.parse_pixel_size(size, default_width, default_height)`:
lower-case and strip, try separators `x` then `*`, return the defaults
on any failure.  (The Python `isinstance(size, str)` guard is outside
this typed embedding; `not size` is the empty-string test.) -/
def parse_pixel_size (size : Str) (defaultWidth defaultHeight : Int) : Int × Int :=
  if size = [] then (defaultWidth, defaultHeight)
  else
    let sl := pyStrip (pyLower size)
    match trySep 'x' sl with
    | some wh => wh
    | none =>
      match trySep '*' sl with
      | some wh => wh
      | none => (defaultWidth, defaultHeight)

/-- The three resolution tiers `["1K", "2K", "4K"]`. -/
def tiers : List Str := [['1', 'K'], ['2', 'K'], ['4', 'K']]

/-- `size_utils.validate_image_size(size)`: the four accepted formats,
in the order the Python function tests them. -/
def validate_image_size (size : Str) : Bool :=
  if size = [] then false
  else
    let s := pyStrip size
    if ['-'].isPrefixOf s then pyUpper (pyStrip (s.drop 1)) ∈ tiers
    else
      if '-' ∈ s ∧ ':' ∈ s then
        match splitFirst '-' s with
        | (aspect0, some res0) =>
          let aspect := pyStrip aspect0
          let resolution := pyUpper (pyStrip res0)
          if ':' ∈ aspect then
            match splitFirst ':' aspect with
            | (w0, some h0) =>
              match pyInt (pyStrip w0), pyInt (pyStrip h0) with
              | some w, some h =>
                if w ≤ 0 ∨ h ≤ 0 then false else resolution ∈ tiers
              | _, _ => false
            | (_, none) => false
          else false
        | (_, none) => false
      else if ':' ∈ s ∧ 'x' ∉ pyLower s then
        match splitFirst ':' s with
        | (w0, some h0) =>
          match pyInt (pyStrip w0), pyInt (pyStrip h0) with
          | some w, some h => w > 0 && h > 0
          | _, _ => false
        | (_, none) => false
      else if 'x' ∈ pyLower s ∨ '*' ∈ s then
        let wh := parse_pixel_size s 0 0
        64 ≤ wh.1 && wh.1 ≤ 4096 && 64 ≤ wh.2 && wh.2 ≤ 4096
      else false

/-!
## Embedding of `Custom_Pic_Action._validate_image_size` and the size
resolution step of `_execute_unified_generation`
(`src/core/pic_action.py`)
-/

/-- Shared integer-and-range check of the action-level validator. -/
def actionRangeCheck (w0 h0 : Str) : Bool :=
  match pyInt (pyStrip w0), pyInt (pyStrip h0) with
  | some w, some h => 64 ≤ w && w ≤ 4096 && 64 ≤ h && h ≤ 4096
  | _, _ => false

/-- `Custom_Pic_Action._validate_image_size(size)`: accepts only
`'x'`- or `'*'`-separated pixel sizes with both components in
`[64, 4096]`; note it neither lower-cases nor strips the whole string. -/
def action_validate_image_size (size : Str) : Bool :=
  if size = [] then false
  else if 'x' ∈ size then
    match splitFirst 'x' size with
    | (w0, some h0) => actionRangeCheck w0 h0
    | (_, none) => false
  else if '*' ∈ size then
    match splitFirst '*' size with
    | (w0, some h0) => actionRangeCheck w0 h0
    | (_, none) => false
  else false

/-- The fallback default size literal `"1024x1024"`. -/
def defaultSize1024 : Str := ['1', '0', '2', '4', 'x', '1', '0', '2', '4']

/-- The size-resolution step of `_execute_unified_generation`
(`pic_action.py` lines 211–221): `fixed_size_enabled` discards the
explicit size, `size or default_size` applies Python falsiness, and an
explicit size rejected by `_validate_image_size` is replaced by the
model's `default_size` (itself defaulting to `"1024x1024"`). -/
def resolveImageSize (fixedSizeEnabled : Bool) (size : Option Str)
    (defaultSize : Option Str) : Str :=
  let size := if fixedSizeEnabled then none else size
  let d := defaultSize.getD defaultSize1024
  let imageSize :=
    match size with
    | some s => if s = [] then d else s
    | none => d
  if action_validate_image_size imageSize then imageSize else d

/-!
## Canonical size strings and their parses
-/

/-- The canonical pixel-size string `"W<sep>H"`. -/
def pixelStr (w : Nat) (sep : Char) (h : Nat) : Str := numStr w ++ sep :: numStr h

/-- The canonical aspect-ratio string `"W:H"`. -/
def aspectStr (w h : Nat) : Str := numStr w ++ ':' :: numStr h

/-- The canonical aspect-plus-resolution string `"W:H-T"`. -/
def aspectResStr (w h : Nat) (t : Str) : Str := aspectStr w h ++ '-' :: t

/-- The canonical resolution-only string `"-T"`. -/
def resStr (t : Str) : Str := '-' :: t

theorem no_space_numStr {n : Nat} : ∀ c ∈ numStr n, isPySpace c = false :=
  fun _ hc => (digit_char_facts (numStr_mem_digitList hc)).2.1

theorem no_space_append {a b : Str} (ha : ∀ c ∈ a, isPySpace c = false)
    (hb : ∀ c ∈ b, isPySpace c = false) : ∀ c ∈ a ++ b, isPySpace c = false := by
  intro c hc
  rcases List.mem_append.mp hc with h | h
  · exact ha c h
  · exact hb c h

theorem no_space_cons {c0 : Char} {b : Str} (h0 : isPySpace c0 = false)
    (hb : ∀ c ∈ b, isPySpace c = false) : ∀ c ∈ c0 :: b, isPySpace c = false := by
  intro c hc
  rcases List.mem_cons.mp hc with h | h
  · exact h ▸ h0
  · exact hb c h

theorem not_mem_append_cons {c m : Char} {a b : Str} (ha : c ∉ a) (hm : c ≠ m)
    (hb : c ∉ b) : c ∉ a ++ m :: b := by
  intro hc
  rcases List.mem_append.mp hc with h | h
  · exact ha h
  · rcases List.mem_cons.mp h with h | h
    · exact hm h
    · exact hb h

theorem mem_append_cons_self (m : Char) (a b : Str) : m ∈ a ++ m :: b :=
  List.mem_append_right a (List.mem_cons_self m b)

/-- Splitting at the unique occurrence of `sep` between two numerals. -/
theorem splitFirst_pixel {w h : Nat} {sep : Char}
    (hs : sep = ':' ∨ sep = '-' ∨ sep = '+' ∨ sep = 'x' ∨ sep = 'X' ∨ sep = '*' ∨ sep = '_') :
    splitFirst sep (numStr w ++ sep :: numStr h) = (numStr w, some (numStr h)) :=
  splitFirst_sep (numStr_not_mem hs)

/-- The lower-cased form of a canonical pixel string. -/
theorem pyLower_pixelStr (w h : Nat) (sep : Char) (hsep : pyLowerChar sep = sep) :
    pyLower (pixelStr w sep h) = pixelStr w sep h := by
  unfold pixelStr pyLower
  rw [List.map_append, List.map_cons]
  rw [show List.map pyLowerChar (numStr w) = pyLower (numStr w) from rfl,
    show List.map pyLowerChar (numStr h) = pyLower (numStr h) from rfl,
    pyLower_numStr, pyLower_numStr, hsep]

theorem pyStrip_pixelStr (w h : Nat) (sep : Char) (hsep : isPySpace sep = false) :
    pyStrip (pixelStr w sep h) = pixelStr w sep h :=
  pyStrip_eq_self (no_space_append no_space_numStr (no_space_cons hsep no_space_numStr))

theorem pixelStr_ne_nil {w : Nat} (hw : 0 < w) (sep : Char) (h : Nat) :
    pixelStr w sep h ≠ [] := by
  unfold pixelStr
  intro hc
  exact numStr_ne_nil hw (List.append_eq_nil.mp hc).1

/-- `trySep` succeeds on a canonical pixel string with matching
separator. -/
theorem trySep_canonical {w h : Nat} (hw : 0 < w) (hh : 0 < h) {sep : Char}
    (hs : sep = 'x' ∨ sep = '*') :
    trySep sep (pixelStr w sep h) = some ((w : Int), (h : Int)) := by
  have hsl : sep = ':' ∨ sep = '-' ∨ sep = '+' ∨ sep = 'x' ∨ sep = 'X' ∨ sep = '*' ∨ sep = '_' := by
    rcases hs with h | h <;> simp [h]
  have hnw : sep ∉ numStr w := numStr_not_mem hsl
  have hnh : sep ∉ numStr h := numStr_not_mem hsl
  unfold trySep pixelStr
  rw [if_pos (mem_append_cons_self sep _ _), splitChar_single hnw hnh]
  simp only [pyStrip_numStr, pyInt_numStr hw, pyInt_numStr hh]
  rw [if_pos ⟨by exact_mod_cast hw, by exact_mod_cast hh⟩]

/-- `trySep 'x'` fails on a canonical `*`-separated pixel string. -/
theorem trySep_x_star (w h : Nat) : trySep 'x' (pixelStr w '*' h) = none := by
  unfold trySep
  rw [if_neg]
  exact not_mem_append_cons (numStr_not_mem (by simp)) (by decide)
    (numStr_not_mem (by simp))

/-- Lower-casing a canonical `X`-separated pixel string gives the
`x`-separated one. -/
theorem pyLower_pixelStr_X (w h : Nat) :
    pyLower (pixelStr w 'X' h) = pixelStr w 'x' h := by
  unfold pixelStr pyLower
  rw [List.map_append, List.map_cons]
  rw [show List.map pyLowerChar (numStr w) = pyLower (numStr w) from rfl,
    show List.map pyLowerChar (numStr h) = pyLower (numStr h) from rfl,
    pyLower_numStr, pyLower_numStr, show pyLowerChar 'X' = 'x' from by decide]

/-- `parse_pixel_size` round-trips every canonical positive pixel size,
for each of the three separators `x`, `X`, `*`. -/
theorem parse_pixel_size_canonical {w h : Nat} (hw : 0 < w) (hh : 0 < h)
    {sep : Char} (hs : sep = 'x' ∨ sep = 'X' ∨ sep = '*') (d1 d2 : Int) :
    parse_pixel_size (pixelStr w sep h) d1 d2 = ((w : Int), (h : Int)) := by
  rcases hs with h1 | h1 | h1 <;> subst h1 <;> unfold parse_pixel_size
  · rw [if_neg (pixelStr_ne_nil hw 'x' h)]
    simp only [pyLower_pixelStr w h 'x' (by decide), pyStrip_pixelStr w h 'x' (by decide),
      trySep_canonical hw hh (Or.inl rfl)]
  · rw [if_neg (pixelStr_ne_nil hw 'X' h)]
    simp only [pyLower_pixelStr_X w h, pyStrip_pixelStr w h 'x' (by decide),
      trySep_canonical hw hh (Or.inl rfl)]
  · rw [if_neg (pixelStr_ne_nil hw '*' h)]
    simp only [pyLower_pixelStr w h '*' (by decide), pyStrip_pixelStr w h '*' (by decide),
      trySep_x_star w h, trySep_canonical hw hh (Or.inr rfl)]

end PicPlugin

namespace PicPlugin

theorem tier_facts {t : Str} (ht : t ∈ tiers) :
    pyUpper (pyStrip t) = t ∧ (∀ c ∈ t, isPySpace c = false) ∧
      '-' ∉ t ∧ ':' ∉ t ∧ 'x' ∉ pyLower t ∧ 'x' ∉ t ∧ '*' ∉ t := by
  fin_cases ht <;> refine ⟨by decide, by decide, by decide, by decide,
    by decide, by decide, by decide⟩

/-- A string starting with a positive numeral does not start with `-`. -/
theorem not_prefix_dash {w : Nat} (hw : 0 < w) (rest : Str) :
    (['-'].isPrefixOf (numStr w ++ rest)) = false := by
  match hnum : numStr w with
  | [] => exact absurd hnum (numStr_ne_nil hw)
  | c :: t =>
    have hc : c ≠ '-' :=
      (digit_char_facts (numStr_mem_digitList (hnum ▸ List.mem_cons_self c t))).2.2.2.1
    simp only [List.cons_append, List.isPrefixOf, List.isPrefixOf_nil_left, Bool.and_true,
      beq_eq_false_iff_ne, ne_eq]
    exact fun h => hc h.symm

theorem pyStrip_aspectStr (w h : Nat) : pyStrip (aspectStr w h) = aspectStr w h :=
  pyStrip_eq_self (no_space_append no_space_numStr (no_space_cons (by decide) no_space_numStr))

theorem aspectStr_ne_nil {w : Nat} (hw : 0 < w) (h : Nat) : aspectStr w h ≠ [] := by
  unfold aspectStr
  intro hc
  exact numStr_ne_nil hw (List.append_eq_nil.mp hc).1

/-- `validate_image_size` accepts every canonical bare aspect ratio. -/
theorem validate_aspect {w h : Nat} (hw : 0 < w) (hh : 0 < h) :
    validate_image_size (aspectStr w h) = true := by
  unfold validate_image_size
  rw [if_neg (aspectStr_ne_nil hw h)]
  simp only [pyStrip_aspectStr]
  rw [show aspectStr w h = numStr w ++ ':' :: numStr h from rfl]
  rw [not_prefix_dash hw, if_neg (by simp)]
  have hdash : '-' ∉ numStr w ++ ':' :: numStr h :=
    not_mem_append_cons (numStr_not_mem (by simp)) (by decide) (numStr_not_mem (by simp))
  rw [if_neg (fun hc => hdash hc.1)]
  have hx : 'x' ∉ pyLower (numStr w ++ ':' :: numStr h) := by
    rw [show pyLower (numStr w ++ ':' :: numStr h) =
        pyLower (numStr w) ++ pyLowerChar ':' :: pyLower (numStr h) from by
      simp [pyLower]]
    rw [pyLower_numStr, pyLower_numStr]
    exact not_mem_append_cons (numStr_not_mem (by simp)) (by decide)
      (numStr_not_mem (by simp))
  rw [if_pos ⟨mem_append_cons_self ':' _ _, hx⟩,
    splitFirst_sep (numStr_not_mem (by simp))]
  simp only [pyStrip_numStr, pyInt_numStr hw, pyInt_numStr hh]
  have hwi : (0 : Int) < (w : Int) := by exact_mod_cast hw
  have hhi : (0 : Int) < (h : Int) := by exact_mod_cast hh
  simp [hwi, hhi]

/-- `validate_image_size` accepts every canonical aspect-plus-resolution
string with a valid tier. -/
theorem validate_aspect_res {w h : Nat} (hw : 0 < w) (hh : 0 < h) {t : Str}
    (ht : t ∈ tiers) : validate_image_size (aspectResStr w h t) = true := by
  have htf := tier_facts ht
  have hsflat : aspectResStr w h t = numStr w ++ ':' :: (numStr h ++ '-' :: t) := by
    simp [aspectResStr, aspectStr]
  unfold validate_image_size
  rw [if_neg (by
    rw [hsflat]
    intro hc
    exact numStr_ne_nil hw (List.append_eq_nil.mp hc).1)]
  have hnospace : ∀ c ∈ aspectResStr w h t, isPySpace c = false := by
    rw [hsflat]
    exact no_space_append no_space_numStr (no_space_cons (by decide)
      (no_space_append no_space_numStr (no_space_cons (by decide) htf.2.1)))
  simp only [pyStrip_eq_self hnospace]
  rw [hsflat, not_prefix_dash hw, if_neg (by simp)]
  have hdmem : '-' ∈ numStr w ++ ':' :: (numStr h ++ '-' :: t) := by
    refine List.mem_append_right _ (List.mem_cons_of_mem _ ?_)
    exact mem_append_cons_self '-' _ _
  have hcmem : ':' ∈ numStr w ++ ':' :: (numStr h ++ '-' :: t) :=
    mem_append_cons_self ':' _ _
  rw [if_pos ⟨hdmem, hcmem⟩]
  have hre : numStr w ++ ':' :: (numStr h ++ '-' :: t) =
      (numStr w ++ ':' :: numStr h) ++ '-' :: t := by simp
  rw [hre, splitFirst_sep (not_mem_append_cons (numStr_not_mem (by simp)) (by decide)
    (numStr_not_mem (by simp)))]
  have hstripa : pyStrip (numStr w ++ ':' :: numStr h) = numStr w ++ ':' :: numStr h :=
    pyStrip_eq_self (no_space_append no_space_numStr
      (no_space_cons (by decide) no_space_numStr))
  simp only [hstripa, htf.1]
  rw [if_pos (mem_append_cons_self ':' _ _), splitFirst_sep (numStr_not_mem (by simp))]
  simp only [pyStrip_numStr, pyInt_numStr hw, pyInt_numStr hh]
  have hwi : ¬((w : Int) ≤ 0 ∨ (h : Int) ≤ 0) := by
    push_neg
    constructor <;> [exact_mod_cast hw; exact_mod_cast hh]
  rw [if_neg hwi]
  simp [ht]

/-- `validate_image_size` accepts every resolution-only string with a
valid tier. -/
theorem validate_res {t : Str} (ht : t ∈ tiers) :
    validate_image_size (resStr t) = true := by
  have htf := tier_facts ht
  unfold validate_image_size resStr
  rw [if_neg (by simp)]
  have hnospace : ∀ c ∈ '-' :: t, isPySpace c = false :=
    no_space_cons (by decide) htf.2.1
  simp only [pyStrip_eq_self hnospace]
  rw [if_pos (by simp [List.isPrefixOf])]
  have h2 : pyUpper t = t := by
    have h3 := htf.1
    rwa [pyStrip_eq_self htf.2.1] at h3
  simp only [List.drop_one, List.tail_cons, pyStrip_eq_self htf.2.1, h2]
  simp [ht]

/-- `validate_image_size` accepts every canonical pixel string whose two
components lie in `[64, 4096]`. -/
theorem validate_pixel {w h : Nat} (hw1 : 64 ≤ w) (hw2 : w ≤ 4096)
    (hh1 : 64 ≤ h) (hh2 : h ≤ 4096) {sep : Char}
    (hs : sep = 'x' ∨ sep = 'X' ∨ sep = '*') :
    validate_image_size (pixelStr w sep h) = true := by
  have hw : 0 < w := by omega
  have hh : 0 < h := by omega
  have hsepfacts : isPySpace sep = false ∧ sep ≠ '-' ∧ sep ≠ ':' := by
    rcases hs with h1 | h1 | h1 <;> subst h1 <;> refine ⟨by decide, by decide, by decide⟩
  unfold validate_image_size
  rw [if_neg (pixelStr_ne_nil hw sep h)]
  simp only [pyStrip_pixelStr w h sep hsepfacts.1]
  rw [show pixelStr w sep h = numStr w ++ sep :: numStr h from rfl]
  rw [not_prefix_dash hw, if_neg (by simp)]
  have hdash : '-' ∉ numStr w ++ sep :: numStr h :=
    not_mem_append_cons (numStr_not_mem (by simp)) (fun hc => hsepfacts.2.1 hc.symm)
      (numStr_not_mem (by simp))
  have hcolon : ':' ∉ numStr w ++ sep :: numStr h :=
    not_mem_append_cons (numStr_not_mem (by simp)) (fun hc => hsepfacts.2.2 hc.symm)
      (numStr_not_mem (by simp))
  rw [if_neg (fun hc => hdash hc.1), if_neg (fun hc => hcolon hc.1)]
  have hsep4 : 'x' ∈ pyLower (numStr w ++ sep :: numStr h) ∨
      '*' ∈ numStr w ++ sep :: numStr h := by
    rcases hs with h1 | h1 | h1 <;> subst h1
    · left
      rw [show pyLower (numStr w ++ 'x' :: numStr h) =
          pyLower (numStr w) ++ pyLowerChar 'x' :: pyLower (numStr h) from by simp [pyLower]]
      rw [pyLower_numStr, pyLower_numStr, show pyLowerChar 'x' = 'x' from by decide]
      exact mem_append_cons_self 'x' _ _
    · left
      rw [show pyLower (numStr w ++ 'X' :: numStr h) =
          pyLower (numStr w) ++ pyLowerChar 'X' :: pyLower (numStr h) from by simp [pyLower]]
      rw [pyLower_numStr, pyLower_numStr, show pyLowerChar 'X' = 'x' from by decide]
      exact mem_append_cons_self 'x' _ _
    · right
      exact mem_append_cons_self '*' _ _
  rw [if_pos hsep4]
  rw [show numStr w ++ sep :: numStr h = pixelStr w sep h from rfl]
  simp only [parse_pixel_size_canonical hw hh hs]
  have b1 : (64 : Int) ≤ (w : Int) := by exact_mod_cast hw1
  have b2 : (w : Int) ≤ 4096 := by exact_mod_cast hw2
  have b3 : (64 : Int) ≤ (h : Int) := by exact_mod_cast hh1
  have b4 : (h : Int) ≤ 4096 := by exact_mod_cast hh2
  simp [b1, b2, b3, b4]

end PicPlugin

namespace PicPlugin

/-- The action-level validator accepts a canonical pixel string exactly
when both components lie in `[64, 4096]`. -/
theorem action_validate_pixel_iff {w h : Nat} (hw : 0 < w) (hh : 0 < h) {sep : Char}
    (hs : sep = 'x' ∨ sep = '*') :
    (action_validate_image_size (pixelStr w sep h) = true ↔
      64 ≤ w ∧ w ≤ 4096 ∧ 64 ≤ h ∧ h ≤ 4096) := by
  unfold action_validate_image_size
  rw [if_neg (pixelStr_ne_nil hw sep h)]
  rcases hs with h1 | h1 <;> subst h1
  · rw [show pixelStr w 'x' h = numStr w ++ 'x' :: numStr h from rfl,
      if_pos (mem_append_cons_self 'x' (numStr w) (numStr h)),
      splitFirst_pixel (by simp)]
    simp only [actionRangeCheck, pyStrip_numStr, pyInt_numStr hw, pyInt_numStr hh,
      Bool.and_eq_true, decide_eq_true_eq]
    constructor <;> intro hb <;> omega
  · rw [show pixelStr w '*' h = numStr w ++ '*' :: numStr h from rfl,
      if_neg (not_mem_append_cons (numStr_not_mem (by simp))
        (show ('x' : Char) ≠ '*' from by decide) (numStr_not_mem (by simp))),
      if_pos (mem_append_cons_self '*' (numStr w) (numStr h)),
      splitFirst_pixel (by simp)]
    simp only [actionRangeCheck, pyStrip_numStr, pyInt_numStr hw, pyInt_numStr hh,
      Bool.and_eq_true, decide_eq_true_eq]
    constructor <;> intro hb <;> omega

/-- Any string the action-level validator accepts contains `x` or `*`. -/
theorem action_validate_mem_sep {s : Str} (h : action_validate_image_size s = true) :
    'x' ∈ s ∨ '*' ∈ s := by
  by_cases hx : 'x' ∈ s
  · exact Or.inl hx
  · by_cases hst : '*' ∈ s
    · exact Or.inr hst
    · exfalso
      by_cases hnil : s = []
      · rw [action_validate_image_size, if_pos hnil] at h
        exact absurd h (by simp)
      · rw [action_validate_image_size, if_neg hnil, if_neg hx, if_neg hst] at h
        exact absurd h (by simp)

/-- The action-level validator rejects any string without `x` or `*`. -/
theorem action_validate_no_sep {s : Str} (hx : 'x' ∉ s) (hst : '*' ∉ s) :
    action_validate_image_size s = false := by
  by_cases hnil : s = []
  · rw [action_validate_image_size, if_pos hnil]
  · rw [action_validate_image_size, if_neg hnil, if_neg hx, if_neg hst]

theorem action_validate_aspect {w h : Nat} :
    action_validate_image_size (aspectStr w h) = false :=
  action_validate_no_sep
    (not_mem_append_cons (numStr_not_mem (by simp)) (by decide) (numStr_not_mem (by simp)))
    (not_mem_append_cons (numStr_not_mem (by simp)) (by decide) (numStr_not_mem (by simp)))

theorem action_validate_aspect_res {w h : Nat} {t : Str} (ht : t ∈ tiers) :
    action_validate_image_size (aspectResStr w h t) = false := by
  have htf := tier_facts ht
  apply action_validate_no_sep
  · rw [show aspectResStr w h t = numStr w ++ ':' :: (numStr h ++ '-' :: t) from by
      simp [aspectResStr, aspectStr]]
    exact not_mem_append_cons (numStr_not_mem (by simp)) (by decide)
      (not_mem_append_cons (numStr_not_mem (by simp)) (by decide) htf.2.2.2.2.2.1)
  · rw [show aspectResStr w h t = numStr w ++ ':' :: (numStr h ++ '-' :: t) from by
      simp [aspectResStr, aspectStr]]
    exact not_mem_append_cons (numStr_not_mem (by simp)) (by decide)
      (not_mem_append_cons (numStr_not_mem (by simp)) (by decide) htf.2.2.2.2.2.2)

theorem action_validate_res {t : Str} (ht : t ∈ tiers) :
    action_validate_image_size (resStr t) = false := by
  have htf := tier_facts ht
  apply action_validate_no_sep
  · intro hc
    rcases List.mem_cons.mp hc with h | h
    · exact absurd h (by decide)
    · exact htf.2.2.2.2.2.1 h
  · intro hc
    rcases List.mem_cons.mp hc with h | h
    · exact absurd h (by decide)
    · exact htf.2.2.2.2.2.2 h

/-- A size the action-level validator rejects is silently replaced by
the model default. -/
theorem resolve_replaces_invalid {s : Str} {d : Option Str}
    (h : action_validate_image_size s = false) :
    resolveImageSize false (some s) d = d.getD defaultSize1024 := by
  unfold resolveImageSize
  by_cases hnil : s = []
  · subst hnil
    simp [ite_self]
  · simp [hnil, h]

/-- `parse_pixel_size` returns the defaults when neither separator
occurs (after lower-casing and stripping). -/
theorem parse_pixel_size_no_sep {s : Str} (hx : 'x' ∉ pyStrip (pyLower s))
    (hst : '*' ∉ pyStrip (pyLower s)) (d1 d2 : Int) :
    parse_pixel_size s d1 d2 = (d1, d2) := by
  unfold parse_pixel_size
  by_cases hnil : s = []
  · rw [if_pos hnil]
  · rw [if_neg hnil]
    simp only [trySep, if_neg hx, if_neg hst]

end PicPlugin

namespace PicPlugin

/-- A string beginning with a non-digit character never equals a string
beginning with a positive canonical numeral. -/
theorem not_eq_numStr_head {w : Nat} (hw : 0 < w) {c : Char} (hc : c ∉ digitList)
    (l rest : Str) (heq : c :: l = numStr w ++ rest) : False := by
  match hnum : numStr w with
  | [] => exact absurd hnum (numStr_ne_nil hw)
  | d :: t =>
    rw [hnum, List.cons_append] at heq
    have hcd : c = d := by injection heq
    exact hc (hcd ▸ numStr_mem_digitList (by rw [hnum]; exact List.mem_cons_self d t))

/-- The four size grammars enumerated by the specification for
`validate_image_size`, with components written as canonical decimal
numerals: bare aspect ratio `W:H`, aspect-plus-resolution
`W:H-{1K|2K|4K}`, resolution-only `-{1K|2K|4K}`, and pixel `W<sep>H`
with both dimensions in `[64, 4096]`. -/
def fourGrammar (s : Str) : Prop :=
  (∃ w h : Nat, 0 < w ∧ 0 < h ∧ s = aspectStr w h) ∨
  (∃ (w h : Nat) (t : Str), 0 < w ∧ 0 < h ∧ t ∈ tiers ∧ s = aspectResStr w h t) ∨
  (∃ t ∈ tiers, s = resStr t) ∨
  (∃ (w h : Nat) (sep : Char), (sep = 'x' ∨ sep = 'X' ∨ sep = '*') ∧
    64 ≤ w ∧ w ≤ 4096 ∧ 64 ≤ h ∧ h ≤ 4096 ∧ s = pixelStr w sep h)

/-- `validate_image_size` rejects any string containing no size
separator at all. -/
theorem validate_no_sep {s : Str} (h1 : '-' ∉ pyStrip s) (h2 : ':' ∉ pyStrip s)
    (h3 : 'x' ∉ pyLower (pyStrip s)) (h4 : '*' ∉ pyStrip s) :
    validate_image_size s = false := by
  by_cases hnil : s = []
  · rw [validate_image_size, if_pos hnil]
  · rw [validate_image_size, if_neg hnil]
    have hpre : (['-'].isPrefixOf (pyStrip s)) = false := by
      match hstrip : pyStrip s with
      | [] => rfl
      | c :: t =>
        have hcd : c ≠ '-' := fun hc => h1 (by rw [hstrip, hc]; exact List.mem_cons_self _ _)
        simp only [List.isPrefixOf, List.isPrefixOf_nil_left, Bool.and_true,
          beq_eq_false_iff_ne, ne_eq]
        exact fun hcc => hcd hcc.symm
    simp only [hpre, Bool.false_eq_true, if_false]
    rw [if_neg (fun hc => h1 hc.1), if_neg (fun hc => h2 hc.1),
      if_neg (fun hc => hc.elim h3 h4)]

end PicPlugin

namespace PicPlugin

/-- C8 counterexample: the string `"+5x5"` is not of the canonical form
`"W<sep>H"` for any positive integers W, H and separator in {x, X, *},
yet `parse_pixel_size` returns `(5, 5)` for it rather than the supplied
defaults `(7, 7)`, because Python `int()` accepts a leading sign. -/
theorem c8_parse_pixel_size_counterexample :
    parse_pixel_size "+5x5".toList 7 7 = (5, 5) ∧
    ((5 : Int), (5 : Int)) ≠ ((7 : Int), (7 : Int)) ∧
    ¬∃ (w h : Nat) (sep : Char), 0 < w ∧ 0 < h ∧
      (sep = 'x' ∨ sep = 'X' ∨ sep = '*') ∧ "+5x5".toList = pixelStr w sep h := by
  refine ⟨by decide, by decide, ?_⟩
  rintro ⟨w, h, sep, hw, hh, hsep, heq⟩
  rw [show ("+5x5".toList : Str) = '+' :: ['5', 'x', '5'] from rfl] at heq
  exact not_eq_numStr_head hw (by decide) ['5', 'x', '5'] (sep :: numStr h) heq

/-- C8 (amended): for every pair of positive integers W, H and separator
in {x, X, *}, `parse_pixel_size` maps the canonical string `"W<sep>H"`
to exactly (W, H); strings additionally tolerated by Python `int()`
(surrounding whitespace, an explicit sign, leading zeros, underscore
digit grouping) also parse to their integer values — e.g. `"+5x5"` gives
(5, 5) — rather than returning the defaults; and every input in which
neither separator occurs after normalisation, the empty string, and
non-numeric / incomplete / non-positive probes return the supplied
`(default_width, default_height)` pair. -/
theorem c8_parse_pixel_size_amended :
    (∀ w h : Nat, 0 < w → 0 < h → ∀ sep : Char, (sep = 'x' ∨ sep = 'X' ∨ sep = '*') →
      ∀ d1 d2 : Int, parse_pixel_size (pixelStr w sep h) d1 d2 = ((w : Int), (h : Int))) ∧
    parse_pixel_size "+5x5".toList 7 7 = (5, 5) ∧
    (∀ (s : Str) (d1 d2 : Int), 'x' ∉ pyStrip (pyLower s) → '*' ∉ pyStrip (pyLower s) →
      parse_pixel_size s d1 d2 = (d1, d2)) ∧
    parse_pixel_size [] 3 4 = (3, 4) ∧
    parse_pixel_size "abcxdef".toList 3 4 = (3, 4) ∧
    parse_pixel_size "12x".toList 3 4 = (3, 4) ∧
    parse_pixel_size "0x5".toList 3 4 = (3, 4) ∧
    parse_pixel_size "-3x5".toList 3 4 = (3, 4) ∧
    parse_pixel_size "16:9".toList 3 4 = (3, 4) := by
  refine ⟨?_, by decide, ?_, by decide, by decide, by decide, by decide, by decide, by decide⟩
  · intro w h hw hh sep hsep d1 d2
    exact parse_pixel_size_canonical hw hh hsep d1 d2
  · intro s d1 d2 hx hst
    exact parse_pixel_size_no_sep hx hst d1 d2

/-- C8 witness: the amended round-trip theorem applied at W = 12,
H = 34, separator `x`, defaults (7, 7). -/
theorem c8_parse_pixel_size_witness :
    parse_pixel_size "12x34".toList 7 7 = (12, 34) := by
  have h := c8_parse_pixel_size_amended.1 12 34 (by decide) (by decide) 'x'
    (Or.inl rfl) 7 7
  rw [show pixelStr 12 'x' 34 = "12x34".toList from by decide] at h
  exact h

end PicPlugin

namespace PicPlugin

/-- C9 counterexample: `validate_image_size` accepts `"-2k"` (the tier
is upper-cased before comparison), although `"-2k"` matches none of the
four literal grammars `W:H`, `W:H-{1K|2K|4K}`, `-{1K|2K|4K}`, `WxH`. -/
theorem c9_validate_image_size_counterexample :
    validate_image_size "-2k".toList = true ∧ ¬fourGrammar "-2k".toList := by
  refine ⟨by decide, ?_⟩
  rintro (⟨w, h, hw, hh, heq⟩ | ⟨w, h, t, hw, hh, ht, heq⟩ | ⟨t, ht, heq⟩ |
    ⟨w, h, sep, hsep, hw1, hw2, hh1, hh2, heq⟩)
  · rw [show ("-2k".toList : Str) = '-' :: ['2', 'k'] from rfl] at heq
    exact not_eq_numStr_head (by omega) (by decide) ['2', 'k'] (':' :: numStr h) heq
  · rw [show ("-2k".toList : Str) = '-' :: ['2', 'k'] from rfl, aspectResStr, aspectStr,
      List.append_assoc] at heq
    exact not_eq_numStr_head (by omega) (by decide) ['2', 'k'] _ heq
  · rw [show ("-2k".toList : Str) = '-' :: ['2', 'k'] from rfl, resStr] at heq
    have h2 : (['2', 'k'] : Str) = t := by injection heq
    rw [← h2] at ht
    exact absurd ht (by decide)
  · rw [show ("-2k".toList : Str) = '-' :: ['2', 'k'] from rfl, pixelStr] at heq
    exact not_eq_numStr_head (by omega) (by decide) ['2', 'k'] (sep :: numStr h) heq

/-- C9 (amended): `validate_image_size` accepts `"1024x1024"`, `"16:9"`,
`"16:9-2K"`, `"-4K"` and rejects `"1024"`, `"abcxdef"`, `""`,
`"16:9-5K"`; it accepts every string of the four grammars
(bare aspect ratio `W:H` with positive integers, aspect+resolution
`W:H-{1K|2K|4K}`, resolution-only `-{1K|2K|4K}`, and pixel `W<sep>H`
with both dimensions in `[64, 4096]` and separator in {x, X, *});
beyond those grammars it also accepts normalised variants (the tier
comparison is case-insensitive, e.g. `"-2k"`); and it rejects every
string containing no size separator at all. -/
theorem c9_validate_image_size_amended :
    (validate_image_size "1024x1024".toList = true ∧
     validate_image_size "16:9".toList = true ∧
     validate_image_size "16:9-2K".toList = true ∧
     validate_image_size "-4K".toList = true) ∧
    (validate_image_size "1024".toList = false ∧
     validate_image_size "abcxdef".toList = false ∧
     validate_image_size [] = false ∧
     validate_image_size "16:9-5K".toList = false) ∧
    (∀ s : Str, fourGrammar s → validate_image_size s = true) ∧
    validate_image_size "-2k".toList = true ∧
    (∀ s : Str, '-' ∉ pyStrip s → ':' ∉ pyStrip s → 'x' ∉ pyLower (pyStrip s) →
      '*' ∉ pyStrip s → validate_image_size s = false) := by
  refine ⟨⟨by decide, by decide, by decide, by decide⟩,
    ⟨by decide, by decide, by decide, by decide⟩, ?_, by decide, ?_⟩
  · intro s hg
    rcases hg with ⟨w, h, hw, hh, rfl⟩ | ⟨w, h, t, hw, hh, ht, rfl⟩ | ⟨t, ht, rfl⟩ |
      ⟨w, h, sep, hsep, hw1, hw2, hh1, hh2, rfl⟩
    · exact validate_aspect hw hh
    · exact validate_aspect_res hw hh ht
    · exact validate_res ht
    · exact validate_pixel hw1 hw2 hh1 hh2 hsep
  · intro s h1 h2 h3 h4
    exact validate_no_sep h1 h2 h3 h4

/-- C9 witness: the grammar-acceptance conjunct applied at the concrete
aspect ratio 21:9. -/
theorem c9_validate_image_size_witness :
    validate_image_size (aspectStr 21 9) = true :=
  c9_validate_image_size_amended.2.2.1 (aspectStr 21 9)
    (Or.inl ⟨21, 9, by decide, by decide, rfl⟩)

/-- C10: the action-level validator `_validate_image_size` accepts a
canonical pixel string (with separator `x` or `*`) exactly when both
dimensions lie in [64, 4096]; every string it accepts contains `x` or
`*`; every aspect-ratio, aspect+resolution or resolution-tier string is
rejected; in particular `"16:9"`, `"16:9-2K"`, `"-4K"` are rejected; and
a rejected explicit size is silently replaced by the model's
`default_size` in `_execute_unified_generation`. -/
theorem c10_action_size_validation :
    (∀ w h : Nat, 0 < w → 0 < h →
      ((action_validate_image_size (pixelStr w 'x' h) = true ↔
          64 ≤ w ∧ w ≤ 4096 ∧ 64 ≤ h ∧ h ≤ 4096) ∧
       (action_validate_image_size (pixelStr w '*' h) = true ↔
          64 ≤ w ∧ w ≤ 4096 ∧ 64 ≤ h ∧ h ≤ 4096))) ∧
    (∀ s : Str, action_validate_image_size s = true → 'x' ∈ s ∨ '*' ∈ s) ∧
    (∀ w h : Nat, action_validate_image_size (aspectStr w h) = false) ∧
    (∀ (w h : Nat) (t : Str), t ∈ tiers →
      action_validate_image_size (aspectResStr w h t) = false) ∧
    (∀ t ∈ tiers, action_validate_image_size (resStr t) = false) ∧
    (action_validate_image_size "16:9".toList = false ∧
     action_validate_image_size "16:9-2K".toList = false ∧
     action_validate_image_size "-4K".toList = false) ∧
    (∀ (s : Str) (d : Option Str), action_validate_image_size s = false →
      resolveImageSize false (some s) d = d.getD defaultSize1024) := by
  refine ⟨?_, ?_, ?_, ?_, ?_, ⟨by decide, by decide, by decide⟩, ?_⟩
  · intro w h hw hh
    exact ⟨action_validate_pixel_iff hw hh (Or.inl rfl),
      action_validate_pixel_iff hw hh (Or.inr rfl)⟩
  · intro s h
    exact action_validate_mem_sep h
  · intro w h
    exact action_validate_aspect
  · intro w h t ht
    exact action_validate_aspect_res ht
  · intro t ht
    exact action_validate_res ht
  · intro s d h
    exact resolve_replaces_invalid h

/-- C10 witness: `"1024x1024"` is accepted, and the explicit size
`"16:9"` is replaced by the model default `"768x768"`. -/
theorem c10_action_size_validation_witness :
    action_validate_image_size "1024x1024".toList = true ∧
    resolveImageSize false (some "16:9".toList) (some "768x768".toList) =
      "768x768".toList := by
  constructor
  · have h := ((c10_action_size_validation.1 1024 1024 (by decide) (by decide)).1).mpr
      (by decide)
    rw [show pixelStr 1024 'x' 1024 = "1024x1024".toList from by decide] at h
    exact h
  · have h := c10_action_size_validation.2.2.2.2.2.2 "16:9".toList
      (some "768x768".toList) (by decide)
    exact h

end PicPlugin

namespace PicPlugin

/-- Python substring test `needle in hay`. -/
def strContains (needle : Str) : Str → Bool
  | [] => needle.isEmpty
  | c :: t => needle.isPrefixOf (c :: t) || strContains needle t

/-- JSON-like values exchanged with the providers.  Numbers are modelled
as rationals (no floating-point arithmetic is performed on them by the
code under verification; they are only stored and serialised). -/
inductive Json where
  | null
  | bool (b : Bool)
  | num (q : Rat)
  | str (s : Str)
  | arr (elems : List Json)
  | obj (fields : List (Str × Json))

/-- Python dict assignment `d[k] = v` on an insertion-ordered dict:
replace in place if the key exists, else append. -/
def dinsert (k : Str) (v : Json) : List (Str × Json) → List (Str × Json)
  | [] => [(k, v)]
  | (k0, v0) :: t => if k0 = k then (k, v) :: t else (k0, v0) :: dinsert k v t

/-- Python dict lookup `d.get(k)`. -/
def dlookup (k : Str) : List (Str × Json) → Option Json
  | [] => none
  | (k0, v0) :: t => if k0 = k then some v0 else dlookup k t

/-- Python `del d[k]` / `d.pop(k)` (key removal). -/
def ddel (k : Str) : List (Str × Json) → List (Str × Json)
  | [] => []
  | (k0, v0) :: t => if k0 = k then ddel k t else (k0, v0) :: ddel k t

/-- The keys of a dict, in insertion order. -/
def dkeys (d : List (Str × Json)) : List Str := d.map Prod.fst

/-- Python truthiness of a JSON-like value. -/
def truthy : Json → Bool
  | .null => false
  | .bool b => b
  | .num q => q != 0
  | .str s => !s.isEmpty
  | .arr l => !l.isEmpty
  | .obj l => !l.isEmpty

theorem mem_dkeys_dinsert {k' k : Str} {v : Json} {d : List (Str × Json)} :
    k' ∈ dkeys (dinsert k v d) ↔ k' = k ∨ k' ∈ dkeys d := by
  induction d with
  | nil => simp [dinsert, dkeys]
  | cons kv t ih =>
    obtain ⟨k0, v0⟩ := kv
    by_cases h : k0 = k
    · rw [show dinsert k v ((k0, v0) :: t) = (k, v) :: t from by rw [dinsert, if_pos h]]
      simp only [dkeys, List.map_cons, List.mem_cons]
      constructor
      · rintro (h1 | h1)
        · exact Or.inl h1
        · exact Or.inr (Or.inr h1)
      · rintro (h1 | h1 | h1)
        · exact Or.inl h1
        · exact Or.inl (h1.trans h)
        · exact Or.inr h1
    · rw [show dinsert k v ((k0, v0) :: t) = (k0, v0) :: dinsert k v t from by
        rw [dinsert, if_neg h]]
      simp only [dkeys, List.map_cons, List.mem_cons]
      rw [show List.map Prod.fst (dinsert k v t) = dkeys (dinsert k v t) from rfl, ih]
      tauto

theorem mem_dkeys_ddel {k' k : Str} {d : List (Str × Json)} :
    k' ∈ dkeys (ddel k d) ↔ k' ∈ dkeys d ∧ k' ≠ k := by
  induction d with
  | nil => simp [ddel, dkeys]
  | cons kv t ih =>
    obtain ⟨k0, v0⟩ := kv
    by_cases h : k0 = k
    · rw [show ddel k ((k0, v0) :: t) = ddel k t from by rw [ddel, if_pos h], ih]
      simp only [dkeys, List.map_cons, List.mem_cons]
      constructor
      · rintro ⟨h1, h2⟩
        exact ⟨Or.inr h1, h2⟩
      · rintro ⟨h1 | h1, h2⟩
        · exact absurd (h1.trans h) h2
        · exact ⟨h1, h2⟩
    · rw [show ddel k ((k0, v0) :: t) = (k0, v0) :: ddel k t from by rw [ddel, if_neg h]]
      simp only [dkeys, List.map_cons, List.mem_cons]
      rw [show List.map Prod.fst (ddel k t) = dkeys (ddel k t) from rfl, ih]
      constructor
      · rintro (rfl | ⟨h1, h2⟩)
        · exact ⟨Or.inl rfl, h⟩
        · exact ⟨Or.inr h1, h2⟩
      · rintro ⟨h1 | h1, h2⟩
        · exact Or.inl h1
        · exact Or.inr ⟨h1, h2⟩

theorem mem_dkeys_filter {k' : Str} {p : Str × Json → Bool} {d : List (Str × Json)} :
    k' ∈ dkeys (d.filter p) → k' ∈ dkeys d := by
  induction d with
  | nil => simp [dkeys]
  | cons kv t ih =>
    rw [List.filter_cons]
    by_cases hp : p kv
    · rw [if_pos hp]
      simp only [dkeys, List.map_cons, List.mem_cons]
      rintro (h1 | h1)
      · exact Or.inl h1
      · exact Or.inr (ih h1)
    · rw [if_neg hp]
      intro h1
      simp only [dkeys, List.map_cons, List.mem_cons]
      exact Or.inr (ih h1)

/-- Model configuration entry (`models.<id>` in the plugin TOML); absent
fields model missing keys, read through `.get(key, default)`. -/
structure ModelConfig where
  base_url : Option Str := none
  api_key : Option Str := none
  model : Option Str := none
  custom_prompt_add : Option Str := none
  negative_prompt_add : Option Str := none
  seed : Option Int := none
  guidance_scale : Option Rat := none
  watermark : Option Bool := none
  num_inference_steps : Option Int := none
  default_size : Option Str := none
  fixed_size_enabled : Option Bool := none
  format : Option Str := none
  support_img2img : Option Bool := none

/-- Data-URI wrapping of an input image, as inlined in
`_make_openai_image_request` (and identically in the other adapters):
keep an existing `data:image` URI, else sniff JPEG/PNG from the base64
magic prefix, defaulting to JPEG. -/
def prepareDataUri (img : Str) : Str :=
  if "data:image".toList.isPrefixOf img then img
  else if "/9j/".toList.isPrefixOf img then "data:image/jpeg;base64,".toList ++ img
  else if "iVBORw".toList.isPrefixOf img then "data:image/png;base64,".toList ++ img
  else "data:image/jpeg;base64,".toList ++ img

/-- The image-to-image step shared verbatim by both OpenAI-format
builders: add the `image` data URI and, when a strength value was
given, the `strength` field. -/
def stageImage (strength : Option Rat) (inputImage : Option Str)
    (d : List (Str × Json)) : List (Str × Json) :=
  match inputImage with
  | some img =>
    let p := dinsert "image".toList (.str (prepareDataUri img)) d
    match strength with
    | some st => dinsert "strength".toList (.num st) p
    | none => p
  | none => d

/-- Base parameters of `ApiClient._make_openai_image_request`
(`src/core/api_clients.py` lines 210–217). -/
def monolithBase (prompt : Str) (cfg : ModelConfig) (size : Str) : List (Str × Json) :=
  [("model".toList, .str (cfg.model.getD [])),
   ("prompt".toList, .str (prompt ++ cfg.custom_prompt_add.getD [])),
   ("negative_prompt".toList, .str (cfg.negative_prompt_add.getD [])),
   ("size".toList, .str size),
   ("seed".toList, .num ((cfg.seed.getD 42 : Int) : Rat)),
   ("api-key".toList, .str (cfg.api_key.getD []))]

/-- Vendor-specific parameters of `_make_openai_image_request`
(lines 236–241): `watermark` for the exact Volcano-Ark base URL, else
`guidance_scale` and `num_inference_steps`. -/
def monolithPlatform (cfg : ModelConfig) (d : List (Str × Json)) : List (Str × Json) :=
  if cfg.base_url.getD [] = "https://ark.cn-beijing.volces.com/api/v3".toList then
    dinsert "watermark".toList (.bool (cfg.watermark.getD true)) d
  else
    dinsert "num_inference_steps".toList (.num ((cfg.num_inference_steps.getD 20 : Int) : Rat))
      (dinsert "guidance_scale".toList (.num (cfg.guidance_scale.getD (5 / 2 : Rat))) d)

/-- Payload construction of `ApiClient._make_openai_image_request`
(`src/core/api_clients.py` lines 199–241). -/
def makeOpenaiPayloadMonolith (prompt : Str) (cfg : ModelConfig) (size : Str)
    (strength : Option Rat) (inputImage : Option Str) : List (Str × Json) :=
  monolithPlatform cfg (stageImage strength inputImage (monolithBase prompt cfg size))

/-- Base parameters of `OpenAIClient._make_request`
(`src/core/api_clients/openai_client.py` lines 44–56), including the
optional `negative_prompt` and `seed` fields. -/
def clientBase (prompt : Str) (cfg : ModelConfig) (size : Str) : List (Str × Json) :=
  let negative := cfg.negative_prompt_add.getD []
  let seed := cfg.seed.getD (-1)
  let p0 : List (Str × Json) := [
    ("model".toList, .str (cfg.model.getD [])),
    ("prompt".toList, .str (prompt ++ cfg.custom_prompt_add.getD [])),
    ("size".toList, .str size),
    ("n".toList, .num 1)]
  let p1 := if negative ≠ [] then dinsert "negative_prompt".toList (.str negative) p0 else p0
  if seed ≠ 0 ∧ seed ≠ -1 then dinsert "seed".toList (.num (seed : Rat)) p1 else p1

/-- Vendor-specific parameters of `OpenAIClient._make_request`
(lines 65–70): `watermark` when the base URL contains the Volcano-Ark
domain, else `guidance_scale` and `num_inference_steps`. -/
def clientPlatform (cfg : ModelConfig) (d : List (Str × Json)) : List (Str × Json) :=
  if strContains "ark.cn-beijing.volces.com".toList (cfg.base_url.getD []) then
    dinsert "watermark".toList (.bool (cfg.watermark.getD true)) d
  else
    dinsert "num_inference_steps".toList (.num ((cfg.num_inference_steps.getD 20 : Int) : Rat))
      (dinsert "guidance_scale".toList (.num (cfg.guidance_scale.getD (15 / 2 : Rat))) d)

/-- The Python idiom `d[new] = d.pop(old)` guarded by `old in d`:
remove `old` and append its value under `new`. -/
def drename (oldKey newKey : Str) (d : List (Str × Json)) : List (Str × Json) :=
  match dlookup oldKey d with
  | some v => dinsert newKey v (ddel oldKey d)
  | none => d

/-- Platform-compatibility rewrites of `OpenAIClient._make_request`
(lines 72–111): SiliconFlow renames `size`/`n` (and `guidance_scale`
for Qwen models), the OpenAI-official platform keeps an allow-list,
Grok keeps only `model`, `prompt`, `n`, `response_format`. -/
def clientCompat (cfg : ModelConfig) (inputImage : Option Str)
    (d : List (Str × Json)) : List (Str × Json) :=
  let lowerUrl := pyLower (cfg.base_url.getD [])
  let isSiliconflow := strContains "siliconflow".toList lowerUrl ||
    strContains "api.siliconflow.cn".toList lowerUrl
  let isOpenaiOfficial := strContains "api.openai.com".toList lowerUrl
  let isGrok := strContains "api.x.ai".toList lowerUrl
  if isSiliconflow then
    let p6 := drename "n".toList "batch_size".toList
      (drename "size".toList "image_size".toList d)
    let modelLower := pyLower (cfg.model.getD [])
    if strContains "qwen".toList modelLower then
      let p7 := drename "guidance_scale".toList "cfg".toList p6
      if strContains "image-edit".toList modelLower ∧
          (dlookup "image_size".toList p7).isSome then
        ddel "image_size".toList p7
      else p7
    else p6
  else if isOpenaiOfficial then
    let standard := ["model".toList, "prompt".toList, "size".toList, "n".toList,
      "quality".toList, "style".toList, "response_format".toList] ++
      (if inputImage.isSome then ["image".toList, "strength".toList] else [])
    d.filter (fun kv => kv.1 ∈ standard)
  else if isGrok then
    d.filter (fun kv =>
      kv.1 ∈ ["model".toList, "prompt".toList, "n".toList, "response_format".toList])
  else d

/-- Payload construction of `OpenAIClient._make_request`
(`src/core/api_clients/openai_client.py` lines 27–111).
(`_prepare_image_data_uri` lives in the `base_client.py` module, which
is not in the sources; it is modelled by `prepareDataUri`, the inlined
identical logic of `api_clients.py`.) -/
def makeOpenaiPayloadClient (prompt : Str) (cfg : ModelConfig) (size : Str)
    (strength : Option Rat) (inputImage : Option Str) : List (Str × Json) :=
  clientCompat cfg inputImage
    (clientPlatform cfg (stageImage strength inputImage (clientBase prompt cfg size)))

/-- `ApiClient._build_gemini_image_config(model_name, model_config)`
(`src/core/api_clients.py` lines 672–728): maps `default_size` to the
Gemini `imageConfig` dict; the `imageSize` tier is honoured only for
model names containing `gemini-3`; pixel and unrecognised notations fall
back to aspect ratio `1:1`. -/
def build_gemini_image_config (modelName : Str) (cfg : ModelConfig) :
    Option (List (Str × Str)) :=
  let size := pyStrip (cfg.default_size.getD [])
  if size = [] then none
  else
    let config :=
      if '-' ∈ size then
        match splitFirst '-' size with
        | (p0, some p1) =>
          let aspect := pyStrip p0
          let imageSize := pyUpper (pyStrip p1)
          let base := [("aspectRatio".toList, aspect)]
          if strContains "gemini-3".toList (pyLower modelName) then
            if imageSize ∈ tiers then base ++ [("imageSize".toList, imageSize)]
            else base
          else base
        | (_, none) => []
      else if ':' ∈ size then [("aspectRatio".toList, size)]
      else if 'x' ∈ pyLower size then [("aspectRatio".toList, "1:1".toList)]
      else [("aspectRatio".toList, "1:1".toList)]
    if config = [] then none else some config

end PicPlugin

namespace PicPlugin

theorem mem_dkeys_drename {oldKey newKey k : Str} {d : List (Str × Json)}
    (h : k ∈ dkeys (drename oldKey newKey d)) : k = newKey ∨ k ∈ dkeys d := by
  unfold drename at h
  cases hl : dlookup oldKey d with
  | none =>
    rw [hl] at h
    exact Or.inr h
  | some v =>
    rw [hl] at h
    rcases mem_dkeys_dinsert.mp h with h1 | h1
    · exact Or.inl h1
    · exact Or.inr (mem_dkeys_ddel.mp h1).1

/-- Keys added by the shared image-to-image step. -/
theorem mem_dkeys_stageImage {st : Option Rat} {ii : Option Str} {k : Str}
    {d : List (Str × Json)} (h : k ∈ dkeys (stageImage st ii d)) :
    k = "image".toList ∨ k = "strength".toList ∨ k ∈ dkeys d := by
  cases ii with
  | none => exact Or.inr (Or.inr h)
  | some img =>
    cases st with
    | none =>
      simp only [stageImage] at h
      rcases mem_dkeys_dinsert.mp h with h1 | h1
      · exact Or.inl h1
      · exact Or.inr (Or.inr h1)
    | some v =>
      simp only [stageImage] at h
      rcases mem_dkeys_dinsert.mp h with h1 | h1
      · exact Or.inr (Or.inl h1)
      · rcases mem_dkeys_dinsert.mp h1 with h2 | h2
        · exact Or.inl h2
        · exact Or.inr (Or.inr h2)

/-- The `strength` key appears after the image step only if it was
already present, or a source image and a strength value were both
given. -/
theorem strength_mem_stageImage {st : Option Rat} {ii : Option Str}
    {d : List (Str × Json)} (h : "strength".toList ∈ dkeys (stageImage st ii d)) :
    "strength".toList ∈ dkeys d ∨ (ii ≠ none ∧ st ≠ none) := by
  cases ii with
  | none => exact Or.inl h
  | some img =>
    cases st with
    | none =>
      simp only [stageImage] at h
      rcases mem_dkeys_dinsert.mp h with h1 | h1
      · exact absurd h1 (by decide)
      · exact Or.inl h1
    | some v => exact Or.inr ⟨by simp, by simp⟩

/-- With no source image the image step is the identity. -/
theorem stageImage_none (st : Option Rat) (d : List (Str × Json)) :
    stageImage st none d = d := rfl

theorem dkeys_monolithBase (prompt : Str) (cfg : ModelConfig) (size : Str) :
    dkeys (monolithBase prompt cfg size) =
      ["model".toList, "prompt".toList, "negative_prompt".toList, "size".toList,
       "seed".toList, "api-key".toList] := rfl

theorem mem_dkeys_clientBase {prompt : Str} {cfg : ModelConfig} {size : Str} {k : Str}
    (h : k ∈ dkeys (clientBase prompt cfg size)) :
    k = "model".toList ∨ k = "prompt".toList ∨ k = "size".toList ∨ k = "n".toList ∨
      k = "negative_prompt".toList ∨ k = "seed".toList := by
  simp only [clientBase] at h
  split_ifs at h with h1 h2 h2
  · rcases mem_dkeys_dinsert.mp h with h3 | h3
    · tauto
    · rcases mem_dkeys_dinsert.mp h3 with h4 | h4
      · tauto
      · simp only [dkeys, List.map_cons, List.map_nil, List.mem_cons,
          List.not_mem_nil, or_false] at h4
        tauto
  · rcases mem_dkeys_dinsert.mp h with h3 | h3
    · tauto
    · simp only [dkeys, List.map_cons, List.map_nil, List.mem_cons,
        List.not_mem_nil, or_false] at h3
      tauto
  · rcases mem_dkeys_dinsert.mp h with h3 | h3
    · tauto
    · simp only [dkeys, List.map_cons, List.map_nil, List.mem_cons,
        List.not_mem_nil, or_false] at h3
      tauto
  · simp only [dkeys, List.map_cons, List.map_nil, List.mem_cons,
      List.not_mem_nil, or_false] at h
    tauto

/-- Keys added by the monolith vendor-parameter step. -/
theorem mem_dkeys_monolithPlatform {cfg : ModelConfig} {k : Str}
    {d : List (Str × Json)} (h : k ∈ dkeys (monolithPlatform cfg d)) :
    k = "watermark".toList ∨ k = "guidance_scale".toList ∨
      k = "num_inference_steps".toList ∨ k ∈ dkeys d := by
  unfold monolithPlatform at h
  split_ifs at h
  · rcases mem_dkeys_dinsert.mp h with h1 | h1
    · exact Or.inl h1
    · exact Or.inr (Or.inr (Or.inr h1))
  · rcases mem_dkeys_dinsert.mp h with h1 | h1
    · exact Or.inr (Or.inr (Or.inl h1))
    · rcases mem_dkeys_dinsert.mp h1 with h2 | h2
      · exact Or.inr (Or.inl h2)
      · exact Or.inr (Or.inr (Or.inr h2))

/-- Keys added by the client vendor-parameter step. -/
theorem mem_dkeys_clientPlatform {cfg : ModelConfig} {k : Str}
    {d : List (Str × Json)} (h : k ∈ dkeys (clientPlatform cfg d)) :
    k = "watermark".toList ∨ k = "guidance_scale".toList ∨
      k = "num_inference_steps".toList ∨ k ∈ dkeys d := by
  unfold clientPlatform at h
  split_ifs at h
  · rcases mem_dkeys_dinsert.mp h with h1 | h1
    · exact Or.inl h1
    · exact Or.inr (Or.inr (Or.inr h1))
  · rcases mem_dkeys_dinsert.mp h with h1 | h1
    · exact Or.inr (Or.inr (Or.inl h1))
    · rcases mem_dkeys_dinsert.mp h1 with h2 | h2
      · exact Or.inr (Or.inl h2)
      · exact Or.inr (Or.inr (Or.inr h2))

/-- Keys added by the platform-compatibility rewrites. -/
theorem mem_dkeys_clientCompat {cfg : ModelConfig} {ii : Option Str} {k : Str}
    {d : List (Str × Json)} (h : k ∈ dkeys (clientCompat cfg ii d)) :
    k = "image_size".toList ∨ k = "batch_size".toList ∨ k = "cfg".toList ∨
      k ∈ dkeys d := by
  simp only [clientCompat] at h
  split_ifs at h with h1 h2 h3 h4
  · rcases mem_dkeys_ddel.mp h with ⟨h5, _⟩
    rcases mem_dkeys_drename h5 with h6 | h6
    · exact Or.inr (Or.inr (Or.inl h6))
    · rcases mem_dkeys_drename h6 with h7 | h7
      · exact Or.inr (Or.inl h7)
      · rcases mem_dkeys_drename h7 with h8 | h8
        · exact Or.inl h8
        · exact Or.inr (Or.inr (Or.inr h8))
  · rcases mem_dkeys_drename h with h6 | h6
    · exact Or.inr (Or.inr (Or.inl h6))
    · rcases mem_dkeys_drename h6 with h7 | h7
      · exact Or.inr (Or.inl h7)
      · rcases mem_dkeys_drename h7 with h8 | h8
        · exact Or.inl h8
        · exact Or.inr (Or.inr (Or.inr h8))
  · rcases mem_dkeys_drename h with h6 | h6
    · exact Or.inr (Or.inl h6)
    · rcases mem_dkeys_drename h6 with h7 | h7
      · exact Or.inl h7
      · exact Or.inr (Or.inr (Or.inr h7))
  all_goals
    first
    | exact Or.inr (Or.inr (Or.inr (mem_dkeys_filter h)))
    | exact Or.inr (Or.inr (Or.inr h))

end PicPlugin

namespace PicPlugin

/-- C5: the Gemini image-config builder maps `"16:9-2K"` with model
`gemini-3-pro` to aspectRatio 16:9 plus imageSize 2K; the same size with
`gemini-2.5-flash-image-preview` drops imageSize; and the legacy pixel
notation `"1024x1024"` falls back to aspectRatio 1:1 (for either model
family). -/
theorem c5_gemini_image_config :
    build_gemini_image_config "gemini-3-pro".toList
        { default_size := some "16:9-2K".toList } =
      some [("aspectRatio".toList, "16:9".toList), ("imageSize".toList, "2K".toList)] ∧
    build_gemini_image_config "gemini-2.5-flash-image-preview".toList
        { default_size := some "16:9-2K".toList } =
      some [("aspectRatio".toList, "16:9".toList)] ∧
    build_gemini_image_config "gemini-2.5-flash-image-preview".toList
        { default_size := some "1024x1024".toList } =
      some [("aspectRatio".toList, "1:1".toList)] ∧
    build_gemini_image_config "gemini-3-pro".toList
        { default_size := some "1024x1024".toList } =
      some [("aspectRatio".toList, "1:1".toList)] := by
  refine ⟨by decide, by decide, by decide, by decide⟩

/-- C2: in both OpenAI-format payload builders, `strength` is sent only
when a source image is present and a strength value was given; with no
source image, neither `strength` nor `image` appears in the outbound
payload, for every prompt, model config and size. -/
theorem c2_strength_only_with_image :
    (∀ (prompt : Str) (cfg : ModelConfig) (size : Str) (strength : Option Rat),
      "strength".toList ∉ dkeys (makeOpenaiPayloadMonolith prompt cfg size strength none) ∧
      "image".toList ∉ dkeys (makeOpenaiPayloadMonolith prompt cfg size strength none) ∧
      "strength".toList ∉ dkeys (makeOpenaiPayloadClient prompt cfg size strength none) ∧
      "image".toList ∉ dkeys (makeOpenaiPayloadClient prompt cfg size strength none)) ∧
    (∀ (prompt : Str) (cfg : ModelConfig) (size : Str) (strength : Option Rat)
        (inputImage : Option Str),
      ("strength".toList ∈
          dkeys (makeOpenaiPayloadMonolith prompt cfg size strength inputImage) →
        inputImage ≠ none ∧ strength ≠ none) ∧
      ("strength".toList ∈
          dkeys (makeOpenaiPayloadClient prompt cfg size strength inputImage) →
        inputImage ≠ none ∧ strength ≠ none)) := by
  constructor
  · intro prompt cfg size strength
    refine ⟨?_, ?_, ?_, ?_⟩
    · intro h
      rw [makeOpenaiPayloadMonolith, stageImage_none] at h
      rcases mem_dkeys_monolithPlatform h with h1 | h1 | h1 | h1
      · exact absurd h1 (by decide)
      · exact absurd h1 (by decide)
      · exact absurd h1 (by decide)
      · rw [dkeys_monolithBase] at h1
        exact absurd h1 (by decide)
    · intro h
      rw [makeOpenaiPayloadMonolith, stageImage_none] at h
      rcases mem_dkeys_monolithPlatform h with h1 | h1 | h1 | h1
      · exact absurd h1 (by decide)
      · exact absurd h1 (by decide)
      · exact absurd h1 (by decide)
      · rw [dkeys_monolithBase] at h1
        exact absurd h1 (by decide)
    · intro h
      rw [makeOpenaiPayloadClient, stageImage_none] at h
      rcases mem_dkeys_clientCompat h with h1 | h1 | h1 | h1
      · exact absurd h1 (by decide)
      · exact absurd h1 (by decide)
      · exact absurd h1 (by decide)
      · rcases mem_dkeys_clientPlatform h1 with h2 | h2 | h2 | h2
        · exact absurd h2 (by decide)
        · exact absurd h2 (by decide)
        · exact absurd h2 (by decide)
        · rcases mem_dkeys_clientBase h2 with h3 | h3 | h3 | h3 | h3 | h3 <;>
            exact absurd h3 (by decide)
    · intro h
      rw [makeOpenaiPayloadClient, stageImage_none] at h
      rcases mem_dkeys_clientCompat h with h1 | h1 | h1 | h1
      · exact absurd h1 (by decide)
      · exact absurd h1 (by decide)
      · exact absurd h1 (by decide)
      · rcases mem_dkeys_clientPlatform h1 with h2 | h2 | h2 | h2
        · exact absurd h2 (by decide)
        · exact absurd h2 (by decide)
        · exact absurd h2 (by decide)
        · rcases mem_dkeys_clientBase h2 with h3 | h3 | h3 | h3 | h3 | h3 <;>
            exact absurd h3 (by decide)
  · intro prompt cfg size strength inputImage
    constructor
    · intro h
      rw [makeOpenaiPayloadMonolith] at h
      rcases mem_dkeys_monolithPlatform h with h1 | h1 | h1 | h1
      · exact absurd h1 (by decide)
      · exact absurd h1 (by decide)
      · exact absurd h1 (by decide)
      · rcases strength_mem_stageImage h1 with h2 | h2
        · rw [dkeys_monolithBase] at h2
          exact absurd h2 (by decide)
        · exact h2
    · intro h
      rw [makeOpenaiPayloadClient] at h
      rcases mem_dkeys_clientCompat h with h1 | h1 | h1 | h1
      · exact absurd h1 (by decide)
      · exact absurd h1 (by decide)
      · exact absurd h1 (by decide)
      · rcases mem_dkeys_clientPlatform h1 with h2 | h2 | h2 | h2
        · exact absurd h2 (by decide)
        · exact absurd h2 (by decide)
        · exact absurd h2 (by decide)
        · rcases strength_mem_stageImage h2 with h3 | h3
          · rcases mem_dkeys_clientBase h3 with h4 | h4 | h4 | h4 | h4 | h4 <;>
              exact absurd h4 (by decide)
          · exact h3

/-- C2 witness: the no-image conjunct at a concrete request, and the
only-direction conjunct at a concrete image-to-image request. -/
theorem c2_strength_only_with_image_witness :
    "strength".toList ∉ dkeys (makeOpenaiPayloadMonolith "p".toList
      { base_url := some "https://api-inference.modelscope.cn/v1".toList }
      "1024x1024".toList (some (7 / 10 : Rat)) none) ∧
    (some "iVBORw".toList ≠ (none : Option Str) ∧
      some (7 / 10 : Rat) ≠ (none : Option Rat)) := by
  constructor
  · exact (c2_strength_only_with_image.1 "p".toList
      { base_url := some "https://api-inference.modelscope.cn/v1".toList }
      "1024x1024".toList (some (7 / 10 : Rat))).1
  · exact (c2_strength_only_with_image.2 "p".toList
      { base_url := some "https://api-inference.modelscope.cn/v1".toList }
      "1024x1024".toList (some (7 / 10 : Rat)) (some "iVBORw".toList)).1 (by decide)

end PicPlugin

namespace PicPlugin

/-- When the base URL matches none of the three special-cased platforms,
the compatibility rewrites leave the payload unchanged. -/
theorem clientCompat_id {cfg : ModelConfig} {ii : Option Str} {d : List (Str × Json)}
    (h1 : strContains "siliconflow".toList (pyLower (cfg.base_url.getD [])) = false)
    (h2 : strContains "api.siliconflow.cn".toList (pyLower (cfg.base_url.getD [])) = false)
    (h3 : strContains "api.openai.com".toList (pyLower (cfg.base_url.getD [])) = false)
    (h4 : strContains "api.x.ai".toList (pyLower (cfg.base_url.getD [])) = false) :
    clientCompat cfg ii d = d := by
  simp only [clientCompat]
  rw [if_neg (by rw [h1, h2]; decide), if_neg (by rw [h3]; exact Bool.false_ne_true),
    if_neg (by rw [h4]; exact Bool.false_ne_true)]

/-- C7 counterexample: through `OpenAIClient._make_request`, a
text-to-image payload for the Grok base URL `https://api.x.ai/v1`
(which is not the Doubao/Volcano-Ark URL) contains only
`model`/`prompt`/`n` — in particular it excludes `guidance_scale` and
`num_inference_steps`, contradicting "for every other base URL the
payload includes guidance_scale and num_inference_steps". -/
theorem c7_doubao_watermark_counterexample :
    dkeys (makeOpenaiPayloadClient "a red cat".toList
        { base_url := some "https://api.x.ai/v1".toList }
        "1024x1024".toList none none) =
      ["model".toList, "prompt".toList, "n".toList] ∧
    "guidance_scale".toList ∉ dkeys (makeOpenaiPayloadClient "a red cat".toList
        { base_url := some "https://api.x.ai/v1".toList }
        "1024x1024".toList none none) ∧
    "num_inference_steps".toList ∉ dkeys (makeOpenaiPayloadClient "a red cat".toList
        { base_url := some "https://api.x.ai/v1".toList }
        "1024x1024".toList none none) ∧
    strContains "ark.cn-beijing.volces.com".toList "https://api.x.ai/v1".toList = false := by
  refine ⟨by decide, by decide, by decide, by decide⟩

/-- C7 (amended): for every text-to-image request (no source image):
in `_make_openai_image_request` (api_clients.py), a base URL equal to
the Volcano-Ark URL yields `watermark` and excludes `guidance_scale`
and `num_inference_steps`, and every other base URL yields
`guidance_scale`/`num_inference_steps` and excludes `watermark`;
in `OpenAIClient._make_request` (openai_client.py) the same dichotomy
holds for the Ark substring test, but only for base URLs that do not
match the SiliconFlow / OpenAI-official / Grok substrings, whose
compatibility rewrites strip or rename those keys. -/
theorem c7_doubao_watermark_amended :
    (∀ (prompt : Str) (cfg : ModelConfig) (size : Str) (strength : Option Rat),
      cfg.base_url = some "https://ark.cn-beijing.volces.com/api/v3".toList →
        "watermark".toList ∈
            dkeys (makeOpenaiPayloadMonolith prompt cfg size strength none) ∧
        "guidance_scale".toList ∉
            dkeys (makeOpenaiPayloadMonolith prompt cfg size strength none) ∧
        "num_inference_steps".toList ∉
            dkeys (makeOpenaiPayloadMonolith prompt cfg size strength none)) ∧
    (∀ (prompt : Str) (cfg : ModelConfig) (size : Str) (strength : Option Rat),
      cfg.base_url.getD [] ≠ "https://ark.cn-beijing.volces.com/api/v3".toList →
        "guidance_scale".toList ∈
            dkeys (makeOpenaiPayloadMonolith prompt cfg size strength none) ∧
        "num_inference_steps".toList ∈
            dkeys (makeOpenaiPayloadMonolith prompt cfg size strength none) ∧
        "watermark".toList ∉
            dkeys (makeOpenaiPayloadMonolith prompt cfg size strength none)) ∧
    (∀ (prompt : Str) (cfg : ModelConfig) (size : Str) (strength : Option Rat),
      strContains "ark.cn-beijing.volces.com".toList (cfg.base_url.getD []) = true →
      strContains "siliconflow".toList (pyLower (cfg.base_url.getD [])) = false →
      strContains "api.siliconflow.cn".toList (pyLower (cfg.base_url.getD [])) = false →
      strContains "api.openai.com".toList (pyLower (cfg.base_url.getD [])) = false →
      strContains "api.x.ai".toList (pyLower (cfg.base_url.getD [])) = false →
        "watermark".toList ∈
            dkeys (makeOpenaiPayloadClient prompt cfg size strength none) ∧
        "guidance_scale".toList ∉
            dkeys (makeOpenaiPayloadClient prompt cfg size strength none) ∧
        "num_inference_steps".toList ∉
            dkeys (makeOpenaiPayloadClient prompt cfg size strength none)) ∧
    (∀ (prompt : Str) (cfg : ModelConfig) (size : Str) (strength : Option Rat),
      strContains "ark.cn-beijing.volces.com".toList (cfg.base_url.getD []) = false →
      strContains "siliconflow".toList (pyLower (cfg.base_url.getD [])) = false →
      strContains "api.siliconflow.cn".toList (pyLower (cfg.base_url.getD [])) = false →
      strContains "api.openai.com".toList (pyLower (cfg.base_url.getD [])) = false →
      strContains "api.x.ai".toList (pyLower (cfg.base_url.getD [])) = false →
        "guidance_scale".toList ∈
            dkeys (makeOpenaiPayloadClient prompt cfg size strength none) ∧
        "num_inference_steps".toList ∈
            dkeys (makeOpenaiPayloadClient prompt cfg size strength none) ∧
        "watermark".toList ∉
            dkeys (makeOpenaiPayloadClient prompt cfg size strength none)) := by
  refine ⟨?_, ?_, ?_, ?_⟩
  · intro prompt cfg size strength hurl
    rw [makeOpenaiPayloadMonolith, stageImage_none, monolithPlatform,
      if_pos (by rw [hurl]; rfl)]
    refine ⟨mem_dkeys_dinsert.mpr (Or.inl rfl), ?_, ?_⟩
    · intro h
      rcases mem_dkeys_dinsert.mp h with h1 | h1
      · exact absurd h1 (by decide)
      · rw [dkeys_monolithBase] at h1
        exact absurd h1 (by decide)
    · intro h
      rcases mem_dkeys_dinsert.mp h with h1 | h1
      · exact absurd h1 (by decide)
      · rw [dkeys_monolithBase] at h1
        exact absurd h1 (by decide)
  · intro prompt cfg size strength hurl
    rw [makeOpenaiPayloadMonolith, stageImage_none, monolithPlatform, if_neg hurl]
    refine ⟨mem_dkeys_dinsert.mpr (Or.inr (mem_dkeys_dinsert.mpr (Or.inl rfl))),
      mem_dkeys_dinsert.mpr (Or.inl rfl), ?_⟩
    intro h
    rcases mem_dkeys_dinsert.mp h with h1 | h1
    · exact absurd h1 (by decide)
    · rcases mem_dkeys_dinsert.mp h1 with h2 | h2
      · exact absurd h2 (by decide)
      · rw [dkeys_monolithBase] at h2
        exact absurd h2 (by decide)
  · intro prompt cfg size strength hark h1 h2 h3 h4
    rw [makeOpenaiPayloadClient, stageImage_none, clientCompat_id h1 h2 h3 h4,
      clientPlatform, if_pos hark]
    refine ⟨mem_dkeys_dinsert.mpr (Or.inl rfl), ?_, ?_⟩
    · intro h
      rcases mem_dkeys_dinsert.mp h with h5 | h5
      · exact absurd h5 (by decide)
      · rcases mem_dkeys_clientBase h5 with h6 | h6 | h6 | h6 | h6 | h6 <;>
          exact absurd h6 (by decide)
    · intro h
      rcases mem_dkeys_dinsert.mp h with h5 | h5
      · exact absurd h5 (by decide)
      · rcases mem_dkeys_clientBase h5 with h6 | h6 | h6 | h6 | h6 | h6 <;>
          exact absurd h6 (by decide)
  · intro prompt cfg size strength hark h1 h2 h3 h4
    rw [makeOpenaiPayloadClient, stageImage_none, clientCompat_id h1 h2 h3 h4,
      clientPlatform, if_neg (by rw [hark]; exact Bool.false_ne_true)]
    refine ⟨mem_dkeys_dinsert.mpr (Or.inr (mem_dkeys_dinsert.mpr (Or.inl rfl))),
      mem_dkeys_dinsert.mpr (Or.inl rfl), ?_⟩
    intro h
    rcases mem_dkeys_dinsert.mp h with h5 | h5
    · exact absurd h5 (by decide)
    · rcases mem_dkeys_dinsert.mp h5 with h6 | h6
      · exact absurd h6 (by decide)
      · rcases mem_dkeys_clientBase h6 with h7 | h7 | h7 | h7 | h7 | h7 <;>
          exact absurd h7 (by decide)

/-- C7 witness: the Ark conjunct of the amended theorem at the exact
Volcano-Ark base URL, and the generic conjunct at a ModelScope-style
base URL. -/
theorem c7_doubao_watermark_witness :
    "watermark".toList ∈ dkeys (makeOpenaiPayloadMonolith "a red cat".toList
      { base_url := some "https://ark.cn-beijing.volces.com/api/v3".toList }
      "1024x1024".toList none none) ∧
    "guidance_scale".toList ∈ dkeys (makeOpenaiPayloadClient "a red cat".toList
      { base_url := some "https://api-inference.modelscope.cn/v1".toList }
      "1024x1024".toList none none) := by
  constructor
  · exact (c7_doubao_watermark_amended.1 "a red cat".toList
      { base_url := some "https://ark.cn-beijing.volces.com/api/v3".toList }
      "1024x1024".toList none rfl).1
  · exact (c7_doubao_watermark_amended.2.2.2 "a red cat".toList
      { base_url := some "https://api-inference.modelscope.cn/v1".toList }
      "1024x1024".toList none (by decide) (by decide) (by decide) (by decide)
      (by decide)).1

end PicPlugin

namespace PicPlugin

/-- First key in `keys` that is present in `fields` with a truthy value
(the `for key in [...]` loop of `process_api_response`). -/
def firstTruthyKey (keys : List Str) (fields : List (Str × Json)) : Option Json :=
  match keys with
  | [] => none
  | k :: rest =>
    match dlookup k fields with
    | some v => if truthy v then some v else firstTruthyKey rest fields
    | none => firstTruthyKey rest fields

/-- `data[0] if isinstance(data, list) and data else data`. -/
def headOrSelf : Json → Json
  | .arr (x :: _) => x
  | v => v

/-- `ImageProcessor.process_api_response(result)`
(`src/core/image_utils.py` lines 651–675): a plain string passes
through; a dict is searched for the first truthy value among
`url`/`image`/`b64_json`/`data`, then for a nested
`output.image_url` / `output.images[0]`; anything else is `None`. -/
def process_api_response : Json → Option Json
  | .str s => some (.str s)
  | .obj fields =>
    match firstTruthyKey ["url".toList, "image".toList, "b64_json".toList,
        "data".toList] fields with
    | some v => some v
    | none =>
      match dlookup "output".toList fields with
      | some (.obj ofields) =>
        match dlookup "image_url".toList ofields with
        | some v => some (headOrSelf v)
        | none =>
          match dlookup "images".toList ofields with
          | some v => some (headOrSelf v)
          | none => none
      | _ => none
  | _ => none

/-- The 2xx response parsing shared by `OpenAIClient._make_request`
(`src/core/api_clients/openai_client.py` lines 171–206) and
`ApiClient._make_openai_image_request` (`src/core/api_clients.py` lines
278–313): `data[0].b64_json` wins, then `data[0].url`, then
`images[0].url`, then a truthy top-level `url`; a missing/falsy URL is
the "no image URL" failure. -/
def parseOpenaiImageResponse (fields : List (Str × Json)) : Bool × Json :=
  let finish : Option Json → Bool × Json := fun u =>
    match u with
    | some v =>
      if truthy v then (true, v)
      else (false, .str "图片生成API响应成功但未找到图片URL".toList)
    | none => (false, .str "图片生成API响应成功但未找到图片URL".toList)
  match dlookup "data".toList fields with
  | some (.arr (Json.obj ffields :: _)) =>
    match dlookup "b64_json".toList ffields with
    | some b64 => (true, b64)
    | none => finish (dlookup "url".toList ffields)
  | _ =>
    match dlookup "images".toList fields with
    | some (.arr (Json.obj ffields :: _)) => finish (dlookup "url".toList ffields)
    | _ => finish (dlookup "url".toList fields)

/-- C6 counterexample: for the structured dict
`{"data": [{"b64_json": "AAA", "url": "http://u"}]}` the normalizer
`process_api_response` returns the raw value under `data` (the whole
list), not the `b64_json` string, so "the normalizer selects b64_json at
data[0]" fails on the code (its top-level priority order is
`url`, `image`, `b64_json`, `data`). -/
theorem c6_response_normalizer_counterexample :
    process_api_response (Json.obj [("data".toList,
        Json.arr [Json.obj [("b64_json".toList, Json.str "AAA".toList),
                            ("url".toList, Json.str "http://u".toList)]])]) =
      some (Json.arr [Json.obj [("b64_json".toList, Json.str "AAA".toList),
                                ("url".toList, Json.str "http://u".toList)]]) ∧
    (some (Json.arr [Json.obj [("b64_json".toList, Json.str "AAA".toList),
                               ("url".toList, Json.str "http://u".toList)]]) ≠
      some (Json.str "AAA".toList)) := by
  refine ⟨rfl, fun h => Json.noConfusion (Option.some.inj h)⟩

/-- C6 (amended): the normalizer passes a plain string result through
unchanged; for a dict whose only recognised top-level key is `data` it
returns the raw `data` value itself — the selection of `b64_json` over
`url` at `data[0]` happens earlier, in the adapters' HTTP response
parsing, which returns `b64_json` whenever it is present at `data[0]`;
and a dict in which nothing recognised is found normalises to None. -/
theorem c6_response_normalizer_amended :
    (∀ s : Str, process_api_response (.str s) = some (.str s)) ∧
    process_api_response (Json.obj [("data".toList,
        Json.arr [Json.obj [("b64_json".toList, Json.str "AAA".toList),
                            ("url".toList, Json.str "http://u".toList)]])]) =
      some (Json.arr [Json.obj [("b64_json".toList, Json.str "AAA".toList),
                                ("url".toList, Json.str "http://u".toList)]]) ∧
    (∀ (fields ffields : List (Str × Json)) (tail : List Json) (b64 : Json),
      dlookup "data".toList fields = some (.arr (Json.obj ffields :: tail)) →
      dlookup "b64_json".toList ffields = some b64 →
      parseOpenaiImageResponse fields = (true, b64)) ∧
    (∀ fields : List (Str × Json),
      dlookup "url".toList fields = none →
      dlookup "image".toList fields = none →
      dlookup "b64_json".toList fields = none →
      dlookup "data".toList fields = none →
      dlookup "output".toList fields = none →
      process_api_response (.obj fields) = none) := by
  refine ⟨fun s => rfl, rfl, ?_, ?_⟩
  · intro fields ffields tail b64 hdata hb64
    rw [parseOpenaiImageResponse, hdata]
    simp only [hb64]
  · intro fields hurl himage hb64 hdata houtput
    rw [process_api_response]
    rw [show firstTruthyKey ["url".toList, "image".toList, "b64_json".toList,
        "data".toList] fields = none from by
      rw [firstTruthyKey, hurl, firstTruthyKey, himage, firstTruthyKey, hb64,
        firstTruthyKey, hdata, firstTruthyKey]]
    rw [houtput]

/-- C6 witness: the amended theorem applied at a concrete string result
and at a concrete `data[0]` dict containing both `b64_json` and `url`. -/
theorem c6_response_normalizer_witness :
    process_api_response (.str "iVBORw0KGgo".toList) =
      some (.str "iVBORw0KGgo".toList) ∧
    parseOpenaiImageResponse [("data".toList,
        Json.arr [Json.obj [("b64_json".toList, Json.str "B".toList),
                            ("url".toList, Json.str "U".toList)]])] =
      (true, Json.str "B".toList) := by
  constructor
  · exact c6_response_normalizer_amended.1 "iVBORw0KGgo".toList
  · exact c6_response_normalizer_amended.2.2.1
      [("data".toList, Json.arr [Json.obj [("b64_json".toList, Json.str "B".toList),
        ("url".toList, Json.str "U".toList)]])]
      [("b64_json".toList, Json.str "B".toList), ("url".toList, Json.str "U".toList)]
      [] (Json.str "B".toList) rfl rfl

end PicPlugin

namespace PicPlugin

/-- Outcome of one provider-adapter attempt: the adapter returned
`(True, r)`, returned `(False, r)`, or raised an exception with message
`e`. -/
inductive Att where
  | ok (r : Str)
  | fail (r : Str)
  | exn (e : Str)
  deriving DecidableEq

/-- Observable events of the retry loop: `asyncio.sleep(1.0 * attempt)`
(the duration is the integral number of seconds `attempt`, since
`1.0 * attempt` is exact) and an adapter invocation for a given attempt
index. -/
inductive Event where
  | sleep (seconds : Nat)
  | invoke (attempt : Nat)
  deriving DecidableEq

/-- Result of `ApiClient.generate_image` together with its trace. -/
structure RunResult where
  success : Bool
  payload : Str
  events : List Event
  deriving DecidableEq

/-- The exception-to-failure conversion of the final attempt:
`f"API调用异常: {str(e)[:100]}"`. -/
def exnFailMsg (e : Str) : Str := "API调用异常: ".toList ++ e.take 100

/-- The retry loop of `ApiClient.generate_image`
(`src/core/api_clients.py` lines 48–110): before attempt `k > 0` sleep
`1.0 * k` seconds; a success returns immediately; a returned failure or
an exception retries while `attempt < max_retries`, else terminates with
the failure result (the exception message truncated to 100 characters).
The fuel argument is `max_retries + 1 - attempt`; the fuel-exhausted
case is the `return False, "API调用失败"` after the `for` loop. -/
def genLoop (ad : Nat → Att) (maxRetries : Nat) : Nat → Nat → RunResult
  | _, 0 => ⟨false, "API调用失败".toList, []⟩
  | attempt, rem + 1 =>
    let pre : List Event := if 0 < attempt then [.sleep attempt] else []
    let ev := pre ++ [.invoke attempt]
    match ad attempt with
    | .ok r => ⟨true, r, ev⟩
    | .fail r =>
      if attempt < maxRetries then
        let rest := genLoop ad maxRetries (attempt + 1) rem
        ⟨rest.success, rest.payload, ev ++ rest.events⟩
      else ⟨false, r, ev⟩
    | .exn e =>
      if attempt < maxRetries then
        let rest := genLoop ad maxRetries (attempt + 1) rem
        ⟨rest.success, rest.payload, ev ++ rest.events⟩
      else ⟨false, exnFailMsg e, ev⟩

/-- `ApiClient.generate_image(..., max_retries)`: run the retry loop
from attempt 0. -/
def generate_image (ad : Nat → Att) (maxRetries : Nat) : RunResult :=
  genLoop ad maxRetries 0 (maxRetries + 1)

/-- The event trace of `n` consecutive attempts: no sleep before attempt
0, and a sleep of `k` seconds immediately before attempt `k` for each
`k ≥ 1`. -/
def expectedEvents : Nat → List Event
  | 0 => []
  | n + 1 => expectedEvents n ++ (if n = 0 then [.invoke 0] else [.sleep n, .invoke n])

/-- Number of adapter invocations in a trace. -/
def invCount (evts : List Event) : Nat :=
  (evts.filter (fun e => match e with | .invoke _ => true | _ => false)).length

/-- An attempt outcome that does not short-circuit the loop. -/
def isAttFailure (a : Att) : Prop := (∃ m, a = .fail m) ∨ (∃ m, a = .exn m)

theorem invCount_append (a b : List Event) :
    invCount (a ++ b) = invCount a + invCount b := by
  simp [invCount, List.filter_append]

theorem invCount_nil : invCount [] = 0 := rfl

theorem invCount_sleep (k : Nat) : invCount [Event.sleep k] = 0 := rfl

theorem invCount_invoke (k : Nat) : invCount [Event.invoke k] = 1 := rfl

theorem invCount_genLoop (ad : Nat → Att) (maxRetries attempt rem : Nat) :
    invCount (genLoop ad maxRetries attempt rem).events ≤ rem := by
  induction rem generalizing attempt with
  | zero => simp [genLoop, invCount]
  | succ r ih =>
    rcases had : ad attempt with s | s | e <;>
      simp only [genLoop, had] <;> split_ifs <;> (try dsimp only) <;>
      simp only [invCount_append, invCount_sleep, invCount_nil, invCount_invoke] <;>
      first
      | omega
      | (have w := ih (attempt + 1); omega)

/-- C1: with `max_retries = 2`, `generate_image` invokes the adapter at
most 3 times; a first-attempt success returns it with no sleep and no
further invocation; if every attempt before `k ≤ 2` fails (returned
failure or exception) and attempt `k` succeeds, the result is that
success with trace `expectedEvents (k+1)` (sleep of `j` seconds exactly
before each retry attempt `j ≥ 1`, none before attempt 0) — in
particular fail/fail/ok gives exactly 3 invocations and overall
success; a final-attempt returned failure is returned unmodified; and a
final-attempt exception is converted to a returned failure with the
message truncated to 100 characters instead of propagating. -/
theorem c1_generate_image_retry :
    (∀ ad : Nat → Att, invCount (generate_image ad 2).events ≤ 3) ∧
    (∀ (ad : Nat → Att) (s : Str), ad 0 = .ok s →
      generate_image ad 2 = ⟨true, s, [.invoke 0]⟩) ∧
    (∀ (ad : Nat → Att) (k : Nat) (s : Str), k ≤ 2 →
      (∀ j, j < k → isAttFailure (ad j)) → ad k = .ok s →
      generate_image ad 2 = ⟨true, s, expectedEvents (k + 1)⟩ ∧
        invCount (expectedEvents (k + 1)) = k + 1) ∧
    (∀ (ad : Nat → Att) (m : Str), isAttFailure (ad 0) → isAttFailure (ad 1) →
      ad 2 = .fail m →
      generate_image ad 2 = ⟨false, m, expectedEvents 3⟩) ∧
    (∀ (ad : Nat → Att) (e : Str), isAttFailure (ad 0) → isAttFailure (ad 1) →
      ad 2 = .exn e →
      generate_image ad 2 = ⟨false, exnFailMsg e, expectedEvents 3⟩) := by
  have hstep0 : ∀ (ad : Nat → Att) (rem : Nat), isAttFailure (ad 0) →
      genLoop ad 2 0 (rem + 2) =
        ⟨(genLoop ad 2 1 (rem + 1)).success, (genLoop ad 2 1 (rem + 1)).payload,
          [.invoke 0] ++ (genLoop ad 2 1 (rem + 1)).events⟩ := by
    intro ad rem hf
    rcases hf with ⟨m, hm⟩ | ⟨m, hm⟩ <;>
      · rw [genLoop, hm]
        simp
  have hstep1 : ∀ (ad : Nat → Att) (rem : Nat), isAttFailure (ad 1) →
      genLoop ad 2 1 (rem + 2) =
        ⟨(genLoop ad 2 2 (rem + 1)).success, (genLoop ad 2 2 (rem + 1)).payload,
          [.sleep 1, .invoke 1] ++ (genLoop ad 2 2 (rem + 1)).events⟩ := by
    intro ad rem hf
    rcases hf with ⟨m, hm⟩ | ⟨m, hm⟩ <;>
      · rw [genLoop, hm]
        simp
  refine ⟨fun ad => invCount_genLoop ad 2 0 3, ?_, ?_, ?_, ?_⟩
  · intro ad s h0
    rw [generate_image, genLoop, h0]
    simp
  · intro ad k s hk hfail hok
    interval_cases k
    · constructor
      · rw [generate_image, genLoop, hok]
        simp [expectedEvents]
      · simp [expectedEvents, invCount]
    · constructor
      · rw [generate_image, hstep0 ad 1 (hfail 0 (by omega)), genLoop, hok]
        simp [expectedEvents]
      · simp [expectedEvents, invCount]
    · constructor
      · rw [generate_image, hstep0 ad 1 (hfail 0 (by omega)),
          hstep1 ad 0 (hfail 1 (by omega)), genLoop, hok]
        simp [expectedEvents]
      · simp [expectedEvents, invCount]
  · intro ad m hf0 hf1 h2
    rw [generate_image, hstep0 ad 1 hf0, hstep1 ad 0 hf1, genLoop, h2]
    simp [expectedEvents]
  · intro ad e hf0 hf1 h2
    rw [generate_image, hstep0 ad 1 hf0, hstep1 ad 0 hf1, genLoop, h2]
    simp [expectedEvents]

/-- C1 witness: an adapter that fails on attempts 1 and 2 and succeeds
on attempt 3 yields exactly 3 invocations, the backoff trace
invoke/sleep 1/invoke/sleep 2/invoke, and overall success. -/
theorem c1_generate_image_retry_witness :
    generate_image (fun n => if n = 0 then .fail "e1".toList
        else if n = 1 then .fail "e2".toList else .ok "IMG".toList) 2 =
      ⟨true, "IMG".toList, expectedEvents 3⟩ ∧
    invCount (expectedEvents 3) = 3 :=
  c1_generate_image_retry.2.2.1
    (fun n => if n = 0 then .fail "e1".toList
      else if n = 1 then .fail "e2".toList else .ok "IMG".toList)
    2 "IMG".toList (by omega)
    (fun j hj => by
      interval_cases j
      · exact Or.inl ⟨"e1".toList, rfl⟩
      · exact Or.inl ⟨"e2".toList, rfl⟩)
    rfl

end PicPlugin

namespace PicPlugin

/-- `str.replace(pat, "")` (removal of every occurrence), used for
`api_key.replace("Bearer ", "")`; fuel-structural so the kernel can
evaluate it. -/
def pyReplaceDelAux (pat : Str) : Nat → Str → Str
  | 0, l => l
  | _ + 1, [] => []
  | fuel + 1, c :: rest =>
    if pat.isPrefixOf (c :: rest) ∧ pat ≠ [] then
      pyReplaceDelAux pat fuel (List.drop (pat.length - 1) rest)
    else c :: pyReplaceDelAux pat fuel rest

/-- `s.replace(pat, "")`. -/
def pyReplaceDel (pat s : Str) : Str := pyReplaceDelAux pat s.length s

/-- The RFC 4648 base64 alphabet. -/
def b64chars : List Char :=
  "ABCDEFGHIJKLMNOPQRSTUVWXYZabcdefghijklmnopqrstuvwxyz0123456789+/".toList

/-- Character of a 6-bit group. -/
def b64char (n : Nat) : Char := b64chars.getD n '='

/-- `base64.b64encode` on a byte list (each entry taken modulo 256). -/
def b64encode : List Nat → Str
  | [] => []
  | [a] =>
    let a := a % 256
    [b64char (a / 4), b64char (a % 4 * 16), '=', '=']
  | [a, b] =>
    let a := a % 256
    let b := b % 256
    [b64char (a / 4), b64char (a % 4 * 16 + b / 16), b64char (b % 16 * 4), '=']
  | a :: b :: c :: rest =>
    let a := a % 256
    let b := b % 256
    let c := c % 256
    b64char (a / 4) :: b64char (a % 4 * 16 + b / 16) ::
      b64char (b % 16 * 4 + c / 64) :: b64char (c % 64) :: b64encode rest

/-- An HTTP response as seen through the `requests` library: status
code, raw text, parsed JSON body and raw content bytes. -/
structure HttpResp where
  statusCode : Nat
  text : Str
  body : Json
  content : List Nat

/-- Result of one outbound `requests` call: a response, or a raised
exception with message `msg`. -/
inductive NetResult where
  | ok (r : HttpResp)
  | exn (msg : Str)

/-- Python `==` between a JSON value and a string literal: true exactly
for the equal string. -/
def jsonIsStr (j : Json) (s : Str) : Bool :=
  match j with
  | .str t => t = s
  | _ => false

/-- `j.get(k)` for a JSON dict (`None` on non-dicts, whose Python
attribute errors are caught by the surrounding handlers). -/
def jget (j : Json) (k : Str) : Option Json :=
  match j with
  | .obj f => dlookup k f
  | _ => none

/-- `output_images[0]`: first element of a list, first character of a
string; anything else raises (handled as a transient attempt failure by
the caller). -/
def index0 : Json → Option Json
  | .arr (x :: _) => some x
  | .str (c :: _) => some (.str [c])
  | _ => none

/-- Python `str()` of the JSON values a `FAILED` status surfaces; only
the string case is exercised by the provider protocol (and by the
claims below). -/
def jsonPyStr : Json → Str
  | .str s => s
  | .bool true => "True".toList
  | .bool false => "False".toList
  | .null => "None".toList
  | _ => []

/-- `error_message` extraction of the `FAILED` branch:
`result_data.get("error_message", "任务执行失败")`. -/
def errMsgStr (v : Option Json) : Str :=
  match v with
  | some j => jsonPyStr j
  | none => "任务执行失败".toList

/-- Outcome of one iteration of the ModelScope polling loop: terminate
with a result (having performed `downloads` extra HTTP requests), or
poll again. -/
inductive StepOut where
  | done (r : Bool × Str) (downloads : Nat)
  | cont

/-- One iteration of the polling loop of
`ApiClient._make_modelscope_request` (`src/core/api_clients.py` lines
441–520): a non-200 status check or a raised exception is transient;
`SUCCEED` downloads `output_images[0]` and returns its base64 bytes (an
HTTP 200 download) or a download failure; `FAILED` surfaces the
provider's `error_message`; `PENDING`, `RUNNING` and unknown statuses
poll again. -/
def pollStep (poll : Nat → NetResult) (download : Json → NetResult) (i : Nat) :
    StepOut :=
  match poll i with
  | .exn _ => .cont
  | .ok r =>
    if r.statusCode ≠ 200 then .cont
    else
      let status := (jget r.body "task_status".toList).getD (Json.str "UNKNOWN".toList)
      if jsonIsStr status "SUCCEED".toList then
        match jget r.body "output_images".toList with
        | some v =>
          if truthy v then
            match index0 v with
            | some u =>
              match download u with
              | .ok dr =>
                if dr.statusCode = 200 then .done (true, b64encode dr.content) 1
                else .done (false, "图片下载失败".toList) 1
              | .exn m => .done (false, "图片下载异常: ".toList ++ m) 1
            | none => .cont
          else .done (false, "未找到生成的图片".toList) 0
        | none => .done (false, "未找到生成的图片".toList) 0
      else if jsonIsStr status "FAILED".toList then
        .done (false, "任务执行失败: ".toList ++
          errMsgStr (jget r.body "error_message".toList)) 0
      else .cont

/-- The polling loop (`max_attempts = 24`), counting the HTTP requests
it makes; exhausting the budget is the terminal timeout failure. -/
def pollLoopN (poll : Nat → NetResult) (download : Json → NetResult) :
    Nat → Nat → (Bool × Str) × Nat
  | _, 0 => ((false, "任务执行超时".toList), 0)
  | i, rem + 1 =>
    match pollStep poll download i with
    | .done r dls => (r, 1 + dls)
    | .cont =>
      let rest := pollLoopN poll download (i + 1) rem
      (rest.1, 1 + rest.2)

/-- `ApiClient._make_modelscope_request` (`src/core/api_clients.py`
lines 322–527), from the API-key check through submission and polling,
against oracles for the three kinds of outbound request; the second
component counts the outbound HTTP requests made. -/
def makeModelscopeRequest (cfg : ModelConfig) (submit : NetResult)
    (poll : Nat → NetResult) (download : Json → NetResult) : (Bool × Str) × Nat :=
  let api_key := pyReplaceDel "Bearer ".toList (cfg.api_key.getD [])
  if api_key = [] ∨ api_key = "xxxxxxxxxxxxxx".toList ∨
      api_key = "YOUR_API_KEY_HERE".toList then
    ((false, "魔搭API密钥未配置，请在配置文件中设置正确的API密钥".toList), 0)
  else
    match submit with
    | .exn m => ((false, "请求失败: ".toList ++ m), 1)
    | .ok r =>
      if r.statusCode ≠ 200 then ((false, "请求失败: ".toList ++ r.text.take 100), 1)
      else
        match jget r.body "task_id".toList with
        | none => ((false, "未获取到任务ID".toList), 1)
        | some _ =>
          let rest := pollLoopN poll download 0 24
          (rest.1, 1 + rest.2)

end PicPlugin

namespace PicPlugin

/-- Peeling a run of transient poll attempts off the loop. -/
theorem pollLoopN_cont_prefix (poll : Nat → NetResult) (download : Json → NetResult)
    (i m rem : Nat)
    (h : ∀ j, i ≤ j → j < i + m → pollStep poll download j = .cont) :
    pollLoopN poll download i (m + rem) =
      ((pollLoopN poll download (i + m) rem).1,
        m + (pollLoopN poll download (i + m) rem).2) := by
  induction m generalizing i with
  | zero => simp
  | succ n ih =>
    rw [show n + 1 + rem = (n + rem) + 1 from by omega, pollLoopN,
      h i (by omega) (by omega)]
    rw [ih (i + 1) (fun j h1 h2 => h j (by omega) (by omega))]
    rw [show i + 1 + n = i + (n + 1) from by omega]
    dsimp only
    rw [show 1 + (n + (pollLoopN poll download (i + (n + 1)) rem).2) =
      n + 1 + (pollLoopN poll download (i + (n + 1)) rem).2 from by omega]

end PicPlugin

namespace PicPlugin

/-- No terminating poll step produces the timeout result: the timeout
string arises only from exhausting the attempt budget. -/
theorem pollStep_done_ne_timeout {poll : Nat → NetResult}
    {download : Json → NetResult} {i : Nat} {r : Bool × Str} {dls : Nat}
    (h : pollStep poll download i = .done r dls) :
    r ≠ (false, "任务执行超时".toList) := by
  intro hr
  subst hr
  simp only [pollStep] at h
  repeat' split at h
  all_goals first
    | exact StepOut.noConfusion h
    | (injection h with h1 h2; exact absurd h1 (by decide))
    | (injection h with h1 h2
       have h3 : true = false := congrArg Prod.fst h1
       exact absurd h3 (by decide))
    | (injection h with h1 h2
       have h3 := congrArg Prod.snd h1
       simp at h3)

end PicPlugin

namespace PicPlugin

/-- A timeout result means every attempt in the window was transient. -/
theorem pollLoopN_timeout_all_cont (poll : Nat → NetResult)
    (download : Json → NetResult) :
    ∀ (rem i : Nat),
      (pollLoopN poll download i rem).1 = (false, "任务执行超时".toList) →
      ∀ j, i ≤ j → j < i + rem → pollStep poll download j = .cont := by
  intro rem
  induction rem with
  | zero =>
    intro i hres j h1 h2
    omega
  | succ n ih =>
    intro i hres j h1 h2
    rw [pollLoopN] at hres
    cases hstep : pollStep poll download i with
    | done r dls =>
      rw [hstep] at hres
      exact absurd hres (pollStep_done_ne_timeout hstep)
    | cont =>
      rw [hstep] at hres
      by_cases hij : j = i
      · exact hij ▸ hstep
      · exact ih (i + 1) hres j (by omega) (by omega)

/-- C4: in the ModelScope polling loop, if every attempt before `k < 24`
is transient and attempt `k` observes task_status SUCCEED with a
non-empty `output_images` list whose first entry downloads with HTTP
200, the adapter returns success whose payload is the base64 encoding
of the downloaded bytes (not the URL); an HTTP-200 poll whose status is
neither SUCCEED nor FAILED (PENDING, RUNNING, unknown) keeps polling;
and the terminal timeout failure occurs exactly when all 24 attempts
are transient. -/
theorem c4_modelscope_polling :
    (∀ (poll : Nat → NetResult) (download : Json → NetResult) (k : Nat),
      k < 24 →
      (∀ j, j < k → pollStep poll download j = .cont) →
      ∀ r : HttpResp, poll k = .ok r → r.statusCode = 200 →
      jget r.body "task_status".toList = some (.str "SUCCEED".toList) →
      ∀ (u : Json) (tail : List Json),
        jget r.body "output_images".toList = some (.arr (u :: tail)) →
      ∀ dr : HttpResp, download u = .ok dr → dr.statusCode = 200 →
        (pollLoopN poll download 0 24).1 = (true, b64encode dr.content)) ∧
    (∀ (poll : Nat → NetResult) (download : Json → NetResult) (k : Nat)
        (r : HttpResp), poll k = .ok r → r.statusCode = 200 →
      jsonIsStr ((jget r.body "task_status".toList).getD (Json.str "UNKNOWN".toList))
        "SUCCEED".toList = false →
      jsonIsStr ((jget r.body "task_status".toList).getD (Json.str "UNKNOWN".toList))
        "FAILED".toList = false →
      pollStep poll download k = .cont) ∧
    (∀ (poll : Nat → NetResult) (download : Json → NetResult),
      (∀ j, j < 24 → pollStep poll download j = .cont) ↔
        (pollLoopN poll download 0 24).1 = (false, "任务执行超时".toList)) := by
  refine ⟨?_, ?_, ?_⟩
  · intro poll download k hk htrans r hpoll h200 hstat u tail himg dr hdl hdr
    have hstep : pollStep poll download k = .done (true, b64encode dr.content) 1 := by
      simp only [pollStep, hpoll]
      rw [if_neg (by rw [h200]; simp)]
      rw [show (jget r.body "task_status".toList).getD (Json.str "UNKNOWN".toList) =
        Json.str "SUCCEED".toList from by rw [hstat]; rfl]
      rw [if_pos (by rfl), himg]
      simp only [truthy, List.isEmpty, Bool.not_false, if_pos, index0, hdl]
      rw [if_pos hdr]
    obtain ⟨m, hm⟩ : ∃ m, 24 = k + (m + 1) := ⟨23 - k, by omega⟩
    rw [hm, pollLoopN_cont_prefix poll download 0 k (m + 1)
      (fun j h1 h2 => htrans j (by omega))]
    rw [show 0 + k = k from by omega, pollLoopN, hstep]
  · intro poll download k r hpoll h200 hsucc hfail
    simp only [pollStep, hpoll]
    rw [if_neg (by rw [h200]; simp), if_neg (by rw [hsucc]; simp),
      if_neg (by rw [hfail]; simp)]
  · intro poll download
    constructor
    · intro hall
      have := pollLoopN_cont_prefix poll download 0 24 0
        (fun j h1 h2 => hall j (by omega))
      rw [show (24 : Nat) = 24 + 0 from rfl, this]
      rfl
    · intro hres j hj
      exact pollLoopN_timeout_all_cont poll download 24 0 hres j (by omega) (by omega)

/-- Poll oracle of end-to-end scenario C: two `RUNNING` responses,
then `SUCCEED` with `output_images = ["http://x/y.png"]`. -/
def scenPoll : Nat → NetResult := fun i =>
  if i < 2 then
    .ok ⟨200, [], .obj [("task_status".toList, .str "RUNNING".toList)], []⟩
  else
    .ok ⟨200, [], .obj [("task_status".toList, .str "SUCCEED".toList),
      ("output_images".toList, .arr [.str "http://x/y.png".toList])], []⟩

/-- Download oracle of scenario C: HTTP 200 with the bytes of `"Man"`. -/
def scenDl : Json → NetResult := fun _ => .ok ⟨200, [], .null, [77, 97, 110]⟩

/-- C4 witness: scenario C — two `RUNNING` polls then `SUCCEED`; the
adapter returns the base64 of the downloaded bytes (`"TWFu"`), not the
URL. -/
theorem c4_modelscope_polling_witness :
    (pollLoopN scenPoll scenDl 0 24).1 = (true, "TWFu".toList) ∧
    (true, ("TWFu".toList : Str)) ≠ (true, "http://x/y.png".toList) := by
  constructor
  · have h := c4_modelscope_polling.1 scenPoll scenDl 2 (by omega)
      (fun j hj => by interval_cases j <;> rfl)
      ⟨200, [], .obj [("task_status".toList, .str "SUCCEED".toList),
        ("output_images".toList, .arr [.str "http://x/y.png".toList])], []⟩
      rfl rfl rfl (Json.str "http://x/y.png".toList) [] rfl
      ⟨200, [], .null, [77, 97, 110]⟩ rfl rfl
    exact h
  · decide

end PicPlugin

namespace PicPlugin

/-- Caller-visible outcomes of `Custom_Pic_Action._execute_unified_generation`:
the three configuration-error early returns, the cached-image return, and
the branch that actually invokes `ApiClient.generate_image` (whose
post-processing of the returned result is outside this claim and is
carried as the raw `RunResult`). -/
inductive ExecOutcome where
  | invalidModel
  | incompleteConfig
  | keyNotConfigured
  | cachedSent
  | generated (r : RunResult)

/-- Guard portion of `Custom_Pic_Action._execute_unified_generation`
(`src/core/pic_action.py` lines 184–254): a falsy model config returns
the invalid-model error; missing/empty `base_url` or `api_key` returns
the incomplete-config error; an `api_key` containing either placeholder
sentinel (Python substring `in`) returns the key-not-configured error;
otherwise the size is resolved, a truthy cache hit that sends
successfully returns without generating, and the remaining path calls
`generate_image` with `max_retries=2`. The second component counts
provider-adapter invocations. -/
def execute_unified_generation (cfg : Option ModelConfig) (size : Option Str)
    (cached : Option Str) (sendOk : Bool) (ad : Nat → Att) : ExecOutcome × Nat :=
  match cfg with
  | none => (.invalidModel, 0)
  | some mc =>
    let http_base_url := mc.base_url.getD []
    let http_api_key := mc.api_key.getD []
    if http_base_url = [] ∨ http_api_key = [] then (.incompleteConfig, 0)
    else if strContains "YOUR_API_KEY_HERE".toList http_api_key ||
        strContains "xxxxxxxxxxxxxx".toList http_api_key then
      (.keyNotConfigured, 0)
    else
      let image_size := resolveImageSize (mc.fixed_size_enabled.getD false) size
        mc.default_size
    let cachedHit := match cached with | some c => !c.isEmpty | none => false
    if cachedHit && sendOk then (.cachedSent, 0)
    else
      let r := generate_image ad 2
      (.generated r, invCount r.events)

/-- C3: a model config whose api_key contains a placeholder sentinel
("xxxxxxxxxxxxxx" or "YOUR_API_KEY_HERE", Python substring test) makes
`_execute_unified_generation` fail on a configuration-error early
return with zero provider-adapter invocations, for every size, cache
state and adapter; and `_make_modelscope_request` given the literal
placeholder api_key returns the key-not-configured failure with zero
outbound HTTP requests, for every submit/poll/download oracle. -/
theorem c3_placeholder_key_rejected :
    (∀ (mc : ModelConfig) (size cached : Option Str) (sendOk : Bool)
        (ad : Nat → Att),
      (strContains "YOUR_API_KEY_HERE".toList (mc.api_key.getD []) = true ∨
       strContains "xxxxxxxxxxxxxx".toList (mc.api_key.getD []) = true) →
      (execute_unified_generation (some mc) size cached sendOk ad).2 = 0 ∧
      ((execute_unified_generation (some mc) size cached sendOk ad).1 =
          .incompleteConfig ∨
       (execute_unified_generation (some mc) size cached sendOk ad).1 =
          .keyNotConfigured)) ∧
    (∀ (cfg : ModelConfig) (submit : NetResult) (poll : Nat → NetResult)
        (download : Json → NetResult),
      cfg.api_key = some "xxxxxxxxxxxxxx".toList →
      makeModelscopeRequest cfg submit poll download =
        ((false, "魔搭API密钥未配置，请在配置文件中设置正确的API密钥".toList), 0)) := by
  constructor
  · intro mc size cached sendOk ad h
    simp only [execute_unified_generation]
    split_ifs with h1 h2
    · exact ⟨rfl, Or.inl rfl⟩
    · exact ⟨rfl, Or.inr rfl⟩
    all_goals
      refine absurd ?_ h2
      simp only [Bool.or_eq_true]
      rcases h with h | h
      · exact Or.inl h
      · exact Or.inr h
  · intro cfg submit poll download hkey
    simp only [makeModelscopeRequest, hkey, Option.getD_some]
    rw [if_pos (by decide)]

/-- End-to-end scenario D: a model config with a valid base_url and the
literal placeholder api_key `"xxxxxxxxxxxxxx"`. -/
def scenDCfg : ModelConfig :=
  ⟨some "https://api.example.com/v1".toList, some "xxxxxxxxxxxxxx".toList,
   none, none, none, none, none, none, none, none, none, none, none⟩

/-- C3 witness: scenario D — the placeholder api_key yields the
key-not-configured error with zero adapter invocations, and the
ModelScope adapter rejects the same key with zero HTTP requests. -/
theorem c3_placeholder_key_rejected_witness :
    ((execute_unified_generation (some scenDCfg) none none true
        (fun _ => Att.ok [])).2 = 0 ∧
     ((execute_unified_generation (some scenDCfg) none none true
        (fun _ => Att.ok [])).1 = .incompleteConfig ∨
      (execute_unified_generation (some scenDCfg) none none true
        (fun _ => Att.ok [])).1 = .keyNotConfigured)) ∧
    makeModelscopeRequest scenDCfg (.exn []) (fun _ => .exn [])
      (fun _ => .exn []) =
      ((false, "魔搭API密钥未配置，请在配置文件中设置正确的API密钥".toList), 0) :=
  ⟨c3_placeholder_key_rejected.1 scenDCfg none none true (fun _ => Att.ok [])
    (Or.inr (by decide)),
   c3_placeholder_key_rejected.2 scenDCfg (.exn []) (fun _ => .exn [])
    (fun _ => .exn []) rfl⟩

end PicPlugin
